import Mathlib

/-!
Verification of the geometric core of `round_dxf.py`, a script that replaces
sharp corners of closed DXF polyline contours by tangent circular arc fillets.

The script is embedded shallowly over `ℝ`:
* `distance` mirrors the Python `distance` helper;
* `add_fillet` (decomposed into `edgeAngle`, `normAngle`, `start_a`, `end_a`,
  `arcAngles`, `filletDivisor`, `filletCenter`, `filletCenterR`) mirrors the
  fillet computation, with Python's `math.atan2` modelled by `Complex.arg`
  and `round(x, 3)` modelled by `round3`;
* `filletStep` / `processContour` mirror the per-contour rebuild loop of
  `main` (the loop body over `range(len(points))`, the `first` / `memory`
  running state, and the final loop-closing line); an empty vertex list is
  mapped to `none`, modelling the `points[-1]` failure;
* `checks` mirrors the post-pass sanitizer over an abstract entity record.
-/

open Real

namespace RoundDxf

/-- 2D point, as used throughout the script. -/
abbrev Pt : Type := ℝ × ℝ

/-- Python `round(x, 3)`: rounding to 3 decimal places. -/
noncomputable def round3 (x : ℝ) : ℝ := ((round (x * 1000) : ℤ) : ℝ) / 1000

/-- Rounding both coordinates of a point to 3 decimals. -/
noncomputable def round3P (p : Pt) : Pt := (round3 p.1, round3 p.2)

/-- Python `math.atan2 y x`, range `(-π, π]`, modelled by `Complex.arg`. -/
noncomputable def atan2 (y x : ℝ) : ℝ := Complex.arg ⟨x, y⟩

/-- Python `math.degrees`. -/
noncomputable def degrees (x : ℝ) : ℝ := x * 180 / π

/-- `distance(p0, p1)` from the script. -/
noncomputable def distance (p0 p1 : Pt) : ℝ :=
  Real.sqrt ((p1.1 - p0.1) ^ 2 + (p1.2 - p0.2) ^ 2)

/-- `angle1` / `angle2` of `add_fillet`: the polar angle of `p - q`
(`atan2(v[1], v[0])` for `v = (p[0]-q[0], p[1]-q[1])`). -/
noncomputable def edgeAngle (p q : Pt) : ℝ := atan2 (p.2 - q.2) (p.1 - q.1)

/-- The normalisation of `a_diff` into `(-π, π]` performed by `add_fillet`. -/
noncomputable def normAngle (d : ℝ) : ℝ :=
  if d < -π then d + 2 * π else if π < d then d - 2 * π else d

/-- `a_diff` of `add_fillet` after normalisation. -/
noncomputable def a_diff (p0 p1 p2 : Pt) : ℝ :=
  normAngle (edgeAngle p2 p1 - edgeAngle p0 p1)

/-- `start_a` of `add_fillet` (pre-swap start angle, radians). -/
noncomputable def start_a (p0 p1 p2 : Pt) : ℝ :=
  if 0 < a_diff p0 p1 p2 then edgeAngle p0 p1 - π / 2 else edgeAngle p0 p1 + π / 2

/-- `end_a` of `add_fillet` (pre-swap end angle, radians). -/
noncomputable def end_a (p0 p1 p2 : Pt) : ℝ :=
  if 0 < a_diff p0 p1 p2 then edgeAngle p2 p1 + π / 2 else edgeAngle p2 p1 - π / 2

/-- `(start_angle, end_angle)` of the emitted arc in degrees, including the
conditional swap performed in the `0 < a_diff` branch. -/
noncomputable def arcAngles (p0 p1 p2 : Pt) : ℝ × ℝ :=
  if 0 < a_diff p0 p1 p2 then
    (degrees (end_a p0 p1 p2), degrees (start_a p0 p1 p2))
  else
    (degrees (start_a p0 p1 p2), degrees (end_a p0 p1 p2))

/-- The divisor `sin(|angle2 - angle1| / 2)` of the `dist` formula in
`add_fillet`. -/
noncomputable def filletDivisor (p0 p1 p2 : Pt) : ℝ :=
  Real.sin (|edgeAngle p2 p1 - edgeAngle p0 p1| / 2)

/-- The fillet centre chosen by `add_fillet` before rounding: the candidate
`p1 ± dist * (cos bisect, sin bisect)` closer to the midpoint of `p0, p2`
(the first candidate on ties, as in the source comparison). -/
noncomputable def filletCenter (p0 p1 p2 : Pt) (radius : ℝ) : Pt :=
  let bisect_angle := (edgeAngle p0 p1 + edgeAngle p2 p1) / 2
  let dist := radius / filletDivisor p0 p1 p2
  let fillet_center : Pt :=
    (p1.1 + dist * Real.cos bisect_angle, p1.2 + dist * Real.sin bisect_angle)
  let fillet_center2 : Pt :=
    (p1.1 - dist * Real.cos bisect_angle, p1.2 - dist * Real.sin bisect_angle)
  let mid_point : Pt := ((p0.1 + p2.1) / 2, (p0.2 + p2.2) / 2)
  if distance mid_point fillet_center2 < distance mid_point fillet_center then
    fillet_center2
  else
    fillet_center

/-- The fillet centre after the 3-decimal rounding of line 49. -/
noncomputable def filletCenterR (p0 p1 p2 : Pt) (radius : ℝ) : Pt :=
  round3P (filletCenter p0 p1 p2 radius)

/-- DXF entities produced by the script. -/
inductive Entity : Type where
  | arc (center : Pt) (radius startAngle endAngle : ℝ)
  | line (a b : Pt)

/-- `add_fillet(modelspace, p0, p1, p2, radius)`: the arc entity added to the
modelspace together with the returned pair of tangent points. -/
noncomputable def add_fillet (p0 p1 p2 : Pt) (radius : ℝ) : Entity × (Pt × Pt) :=
  let fc := filletCenterR p0 p1 p2 radius
  (Entity.arc fc radius (arcAngles p0 p1 p2).1 (arcAngles p0 p1 p2).2,
   ((round3 (fc.1 + radius * Real.cos (start_a p0 p1 p2)),
     round3 (fc.2 + radius * Real.sin (start_a p0 p1 p2))),
    (round3 (fc.1 + radius * Real.cos (end_a p0 p1 p2)),
     round3 (fc.2 + radius * Real.sin (end_a p0 p1 p2)))))

/-! ### The contour rebuild loop of `main` (lines 83-118) -/

/-- The per-vertex effective radius selection of `main` (lines 96-101):
the configured radius when both adjacent rounded edges are longer than
`2 * radius`, else half the shorter edge under the no-skip policy, else `0`. -/
noncomputable def chooseRadius (p0 p1 p2 : Pt) (radius : ℝ) (skip : Bool) : ℝ :=
  if distance p0 p1 > 2 * radius ∧ distance p1 p2 > 2 * radius then radius
  else if skip = false then min (distance p0 p1) (distance p1 p2) / 2
  else 0

/-- The rounded triple `(points[i-1], points[i], points[(i+1) % len(points)])`
of lines 91-94 (Python's `points[i-1]` wraps to the last element at `i = 0`). -/
noncomputable def tripleAt (points : List Pt) (i : ℕ) : Pt × Pt × Pt :=
  (round3P (points.getD ((i + points.length - 1) % points.length) (0, 0)),
   round3P (points.getD i (0, 0)),
   round3P (points.getD ((i + 1) % points.length) (0, 0)))

/-- The running state of the rebuild loop: the recorded loop-start point
`first`, the running current position `memory`, and the entities emitted so
far for this contour. -/
structure RState : Type where
  first : Pt
  memory : Pt
  out : List Entity

/-- One iteration of the rebuild loop of `main` (lines 90-114) at index `i`. -/
noncomputable def filletStep (points : List Pt) (radius : ℝ) (skip : Bool)
    (st : RState) (i : ℕ) : RState :=
  let t := tripleAt points i
  let p0 := t.1
  let p1 := t.2.1
  let p2 := t.2.2
  let r := chooseRadius p0 p1 p2 radius skip
  if r ≠ 0 then
    let res := add_fillet p0 p1 p2 r
    if i ≠ 0 then
      { first := st.first
        memory := res.2.2
        out := st.out ++ [res.1] ++
          if distance st.memory res.2.1 ≠ 0 then [Entity.line st.memory res.2.1] else [] }
    else
      { first := res.2.1, memory := res.2.2, out := st.out ++ [res.1] }
  else
    if i ≠ 0 then
      { first := st.first, memory := p1, out := st.out ++ [Entity.line st.memory p1] }
    else
      { first := st.first, memory := p1, out := st.out }

/-- The whole rebuild of one contour (lines 84-117): the loop over all vertex
indices followed by the unconditional loop-closing line.  An empty vertex
list yields `none`, modelling the failing `points[-1]` access of line 89
(the Python code raises `IndexError` there before emitting anything). -/
noncomputable def processContour (points : List Pt) (radius : ℝ) (skip : Bool) :
    Option (List Entity) :=
  match points with
  | [] => none
  | p :: ps =>
    let init : RState := { first := p, memory := (p :: ps).getLastD (0, 0), out := [] }
    let st := (List.range (p :: ps).length).foldl (filletStep (p :: ps) radius skip) init
    some (st.out ++ [Entity.line st.memory st.first])

/-! ### The sanitizer `checks` (lines 57-75) -/

/-- Abstract view of a DXF entity as `checks` sees it: its type string and
the attributes it may or may not carry (`Option` models `hasattr`). -/
structure DxfEntity : Type where
  dxftype : String
  elevation : Option ℝ
  start : Option (ℝ × ℝ × ℝ)
  finish : Option (ℝ × ℝ × ℝ)

/-- The z-flattening of lines 62-68: elevation forced to `0` and the z
component of `start` / `end` forced to `0`, on entities carrying those
attributes. -/
def zFlatten (e : DxfEntity) : DxfEntity :=
  { e with
    elevation := e.elevation.map fun _ => 0
    start := e.start.map fun p => (p.1, p.2.1, 0)
    finish := e.finish.map fun p => (p.1, p.2.1, 0) }

/-- `checks(modelspace)` (lines 57-75): the z-flattening pass followed by the
deletion of the remaining `POINT` entities (the warning and histogram prints
have no effect on the document). -/
def checks (ms : List DxfEntity) : List DxfEntity :=
  (ms.map zFlatten).filter fun e => !(e.dxftype == "POINT")

/-- Number of arc entities in an emitted list. -/
def countArcs (l : List Entity) : ℕ :=
  l.countP fun e => match e with
    | Entity.arc _ _ _ _ => true
    | Entity.line _ _ => false

/-- Number of line entities in an emitted list. -/
def countLines (l : List Entity) : ℕ :=
  l.countP fun e => match e with
    | Entity.arc _ _ _ _ => false
    | Entity.line _ _ => true

/-- The vertex list of the closed side-20 square contour. -/
def squarePts : List Pt := [(0, 0), (20, 0), (20, 20), (0, 20)]

/-! ### Geometric predicates used to state tangency -/

/-- 2D cross product (signed parallelogram area). -/
def cross (v w : Pt) : ℝ := v.1 * w.2 - v.2 * w.1

/-- Distance from point `q` to the line through `a` and `b`. -/
noncomputable def distToLine (q a b : Pt) : ℝ :=
  |cross (q.1 - a.1, q.2 - a.2) (b.1 - a.1, b.2 - a.2)| / distance a b

/-- `q` lies within `tol` of some point of the segment from `a` to `b`. -/
def onSegmentWithin (q a b : Pt) (tol : ℝ) : Prop :=
  ∃ t : ℝ, 0 ≤ t ∧ t ≤ 1 ∧
    distance q (a.1 + t * (b.1 - a.1), a.2 + t * (b.2 - a.2)) ≤ tol

/-- The coordinates carried by an emitted entity. -/
def entityCoords : Entity → List ℝ
  | Entity.arc c _ _ _ => [c.1, c.2]
  | Entity.line a b => [a.1, a.2, b.1, b.2]

/-- All coordinates of the entity are fixed by 3-decimal rounding. -/
def coordsOK (e : Entity) : Prop := ∀ x ∈ entityCoords e, round3 x = x

/-- Both coordinates of the point are fixed by 3-decimal rounding. -/
def ptOK (p : Pt) : Prop := round3 p.1 = p.1 ∧ round3 p.2 = p.2

/-- Loop invariant of the rebuild loop: emitted entities and the running
position are rounding-fixed, and the recorded loop-start point is either
rounding-fixed (a tangent point) or still the raw first vertex. -/
def InvOK (head : Pt) (st : RState) : Prop :=
  (∀ e ∈ st.out, coordsOK e) ∧ ptOK st.memory ∧ (ptOK st.first ∨ st.first = head)

/-! ### Evaluation lemmas for concrete inputs -/

theorem round3_int (n : ℤ) : round3 ((n : ℝ)) = (n : ℝ) := by
  unfold round3
  rw [show ((n : ℝ) * 1000) = ((n * 1000 : ℤ) : ℝ) by push_cast; ring, round_intCast]
  push_cast
  ring

theorem round3_zero : round3 0 = 0 := by simpa using round3_int 0

theorem round3_one : round3 1 = 1 := by simpa using round3_int 1

theorem round3_five : round3 (5 : ℝ) = 5 := by simpa using round3_int 5

theorem round3_ten : round3 (10 : ℝ) = 10 := by simpa using round3_int 10

theorem round3_fifteen : round3 (15 : ℝ) = 15 := by simpa using round3_int 15

theorem round3_twenty : round3 (20 : ℝ) = 20 := by simpa using round3_int 20

theorem atan2_pos_y (y : ℝ) (hy : 0 < y) : atan2 y 0 = π / 2 := by
  unfold atan2
  exact Complex.arg_eq_pi_div_two_iff.mpr ⟨rfl, hy⟩

theorem atan2_neg_y (y : ℝ) (hy : y < 0) : atan2 y 0 = -(π / 2) := by
  unfold atan2
  exact Complex.arg_eq_neg_pi_div_two_iff.mpr ⟨rfl, hy⟩

theorem atan2_pos_x (x : ℝ) (hx : 0 ≤ x) : atan2 0 x = 0 := by
  unfold atan2
  exact Complex.arg_eq_zero_iff.mpr ⟨hx, rfl⟩

theorem atan2_neg_x (x : ℝ) (hx : x < 0) : atan2 0 x = π := by
  unfold atan2
  exact Complex.arg_eq_pi_iff.mpr ⟨hx, rfl⟩

theorem sqrt_eq_of_sq (x y : ℝ) (hy : 0 ≤ y) (h : y ^ 2 = x) : Real.sqrt x = y := by
  rw [← h, Real.sqrt_sq hy]

theorem sqrt_two_pos : (0 : ℝ) < Real.sqrt 2 := by positivity

/-- Evaluation of `add_fillet` on a right-angle corner at the origin with the
incoming edge going up and the outgoing edge going right, radius 5.  Covers
`p0 = (0, a)`, `p1 = (0, 0)`, `p2 = (b, 0)` for any positive `a`, `b`. -/
theorem add_fillet_SE (a b : ℝ) (ha : 0 < a) (hb : 0 < b) :
    add_fillet ((0 : ℝ), a) (0, 0) (b, 0) 5 =
      (Entity.arc (5, 5) 5 180 (-90), ((0, 5), (5, 0))) := by
  have hpi := Real.pi_pos
  have hA1 : edgeAngle ((0 : ℝ), a) (0, 0) = π / 2 := by
    simp only [edgeAngle]
    simpa using atan2_pos_y a ha
  have hA2 : edgeAngle (b, (0 : ℝ)) (0, 0) = 0 := by
    simp only [edgeAngle]
    simpa using atan2_pos_x b hb.le
  have hdiff : a_diff ((0 : ℝ), a) (0, 0) (b, 0) = -(π / 2) := by
    unfold a_diff normAngle
    rw [hA1, hA2]
    rw [if_neg (by linarith), if_neg (by linarith)]
    ring
  have hbr : ¬ (0 : ℝ) < a_diff ((0 : ℝ), a) (0, 0) (b, 0) := by
    rw [hdiff]; linarith
  have hsa : start_a ((0 : ℝ), a) (0, 0) (b, 0) = π := by
    unfold start_a
    rw [if_neg hbr, hA1]
    ring
  have hea : end_a ((0 : ℝ), a) (0, 0) (b, 0) = -(π / 2) := by
    unfold end_a
    rw [if_neg hbr, hA2]
    ring
  have hdiv : filletDivisor ((0 : ℝ), a) (0, 0) (b, 0) = Real.sqrt 2 / 2 := by
    unfold filletDivisor
    rw [hA1, hA2]
    rw [show |(0 : ℝ) - π / 2| = π / 2 by rw [zero_sub, abs_neg, abs_of_pos (by linarith)]]
    rw [show (π / 2) / 2 = π / 4 by ring]
    exact Real.sin_pi_div_four
  have h5 : (5 : ℝ) / (Real.sqrt 2 / 2) * (Real.sqrt 2 / 2) = 5 := by
    have h2 : Real.sqrt 2 ≠ 0 := ne_of_gt sqrt_two_pos
    field_simp
  have hc : filletCenter ((0 : ℝ), a) (0, 0) (b, 0) 5 = (5, 5) := by
    simp only [filletCenter, hA1, hA2, hdiv]
    rw [show (π / 2 + 0) / 2 = π / 4 by ring, Real.cos_pi_div_four, Real.sin_pi_div_four, h5]
    rw [if_neg]
    · norm_num
    · refine not_lt.mpr (Real.sqrt_le_sqrt ?_)
      norm_num
      nlinarith
  have hcr : filletCenterR ((0 : ℝ), a) (0, 0) (b, 0) 5 = (5, 5) := by
    unfold filletCenterR round3P
    rw [hc]
    norm_num [round3_five]
  have harc : arcAngles ((0 : ℝ), a) (0, 0) (b, 0) = (180, -90) := by
    unfold arcAngles
    rw [if_neg hbr, hsa, hea]
    unfold degrees
    rw [Prod.mk.injEq]
    constructor
    · field_simp
    · field_simp
      ring
  unfold add_fillet
  rw [hcr, hsa, hea, harc]
  norm_num [Real.cos_pi, Real.sin_pi, Real.cos_neg, Real.sin_neg,
    Real.cos_pi_div_two, Real.sin_pi_div_two, round3_zero, round3_five]

theorem five_div_sqrt2 : (5 : ℝ) / (Real.sqrt 2 / 2) * (Real.sqrt 2 / 2) = 5 := by
  have h2 : Real.sqrt 2 ≠ 0 := ne_of_gt sqrt_two_pos
  field_simp

theorem five_div_sqrt2_neg :
    (5 : ℝ) / (Real.sqrt 2 / 2) * -(Real.sqrt 2 / 2) = -5 := by
  rw [mul_neg, five_div_sqrt2]

/-- `add_fillet` on the corner `(20, 0)` of the side-20 square. -/
theorem add_fillet_sq1 :
    add_fillet ((0 : ℝ), 0) (20, 0) (20, 20) 5 =
      (Entity.arc (15, 5) 5 270 0, ((15, 0), (20, 5))) := by
  have hpi := Real.pi_pos
  have hA1 : edgeAngle ((0 : ℝ), 0) (20, 0) = π := by
    simp only [edgeAngle]
    simpa using atan2_neg_x (-20) (by norm_num)
  have hA2 : edgeAngle ((20 : ℝ), 20) (20, 0) = π / 2 := by
    simp only [edgeAngle]
    simpa using atan2_pos_y 20 (by norm_num)
  have hdiff : a_diff ((0 : ℝ), 0) (20, 0) (20, 20) = -(π / 2) := by
    unfold a_diff normAngle
    rw [hA1, hA2]
    rw [if_neg (by linarith), if_neg (by linarith)]
    ring
  have hbr : ¬ (0 : ℝ) < a_diff ((0 : ℝ), 0) (20, 0) (20, 20) := by
    rw [hdiff]; linarith
  have hsa : start_a ((0 : ℝ), 0) (20, 0) (20, 20) = π + π / 2 := by
    unfold start_a
    rw [if_neg hbr, hA1]
  have hea : end_a ((0 : ℝ), 0) (20, 0) (20, 20) = 0 := by
    unfold end_a
    rw [if_neg hbr, hA2]
    ring
  have hdiv : filletDivisor ((0 : ℝ), 0) (20, 0) (20, 20) = Real.sqrt 2 / 2 := by
    unfold filletDivisor
    rw [hA1, hA2]
    rw [show |π / 2 - π| = π / 2 by rw [show π / 2 - π = -(π / 2) by ring, abs_neg,
      abs_of_pos (by linarith)]]
    rw [show (π / 2) / 2 = π / 4 by ring]
    exact Real.sin_pi_div_four
  have hc : filletCenter ((0 : ℝ), 0) (20, 0) (20, 20) 5 = (15, 5) := by
    simp only [filletCenter, hA1, hA2, hdiv]
    rw [show (π + π / 2) / 2 = π - π / 4 by ring, Real.cos_pi_sub, Real.sin_pi_sub,
      Real.cos_pi_div_four, Real.sin_pi_div_four, five_div_sqrt2, five_div_sqrt2_neg]
    rw [if_neg]
    · norm_num
    · refine not_lt.mpr (Real.sqrt_le_sqrt ?_)
      norm_num
  have hcr : filletCenterR ((0 : ℝ), 0) (20, 0) (20, 20) 5 = (15, 5) := by
    unfold filletCenterR round3P
    rw [hc]
    norm_num [round3_fifteen, round3_five]
  have harc : arcAngles ((0 : ℝ), 0) (20, 0) (20, 20) = (270, 0) := by
    unfold arcAngles
    rw [if_neg hbr, hsa, hea]
    unfold degrees
    rw [Prod.mk.injEq]
    constructor
    · field_simp
      ring
    · norm_num
  unfold add_fillet
  rw [hcr, hsa, hea, harc]
  norm_num [Real.cos_add, Real.sin_add, Real.cos_pi, Real.sin_pi,
    Real.cos_pi_div_two, Real.sin_pi_div_two, Real.cos_zero, Real.sin_zero,
    round3_zero, round3_five, round3_fifteen, round3_twenty]

/-- `add_fillet` on the corner `(20, 20)` of the side-20 square. -/
theorem add_fillet_sq2 :
    add_fillet ((20 : ℝ), 0) (20, 20) (0, 20) 5 =
      (Entity.arc (15, 15) 5 0 90, ((20, 15), (15, 20))) := by
  have hpi := Real.pi_pos
  have hA1 : edgeAngle ((20 : ℝ), 0) (20, 20) = -(π / 2) := by
    simp only [edgeAngle]
    simpa using atan2_neg_y (-20) (by norm_num)
  have hA2 : edgeAngle ((0 : ℝ), 20) (20, 20) = π := by
    simp only [edgeAngle]
    simpa using atan2_neg_x (-20) (by norm_num)
  have hdiff : a_diff ((20 : ℝ), 0) (20, 20) (0, 20) = -(π / 2) := by
    unfold a_diff normAngle
    rw [hA1, hA2]
    rw [if_neg (by linarith), if_pos (by linarith)]
    ring
  have hbr : ¬ (0 : ℝ) < a_diff ((20 : ℝ), 0) (20, 20) (0, 20) := by
    rw [hdiff]; linarith
  have hsa : start_a ((20 : ℝ), 0) (20, 20) (0, 20) = 0 := by
    unfold start_a
    rw [if_neg hbr, hA1]
    ring
  have hea : end_a ((20 : ℝ), 0) (20, 20) (0, 20) = π / 2 := by
    unfold end_a
    rw [if_neg hbr, hA2]
    ring
  have hdiv : filletDivisor ((20 : ℝ), 0) (20, 20) (0, 20) = Real.sqrt 2 / 2 := by
    unfold filletDivisor
    rw [hA1, hA2]
    rw [show (π - -(π / 2)) = π + π / 2 by ring]
    rw [abs_of_pos (by linarith)]
    rw [show (π + π / 2) / 2 = π - π / 4 by ring, Real.sin_pi_sub]
    exact Real.sin_pi_div_four
  have hc : filletCenter ((20 : ℝ), 0) (20, 20) (0, 20) 5 = (15, 15) := by
    simp only [filletCenter, hA1, hA2, hdiv]
    rw [show (-(π / 2) + π) / 2 = π / 4 by ring,
      Real.cos_pi_div_four, Real.sin_pi_div_four, five_div_sqrt2]
    rw [if_pos]
    · norm_num
    · refine Real.sqrt_lt_sqrt (by norm_num) (by norm_num)
  have hcr : filletCenterR ((20 : ℝ), 0) (20, 20) (0, 20) 5 = (15, 15) := by
    unfold filletCenterR round3P
    rw [hc]
    norm_num [round3_fifteen]
  have harc : arcAngles ((20 : ℝ), 0) (20, 20) (0, 20) = (0, 90) := by
    unfold arcAngles
    rw [if_neg hbr, hsa, hea]
    unfold degrees
    rw [Prod.mk.injEq]
    constructor
    · norm_num
    · field_simp
      ring
  unfold add_fillet
  rw [hcr, hsa, hea, harc]
  norm_num [Real.cos_zero, Real.sin_zero, Real.cos_pi_div_two, Real.sin_pi_div_two,
    round3_fifteen, round3_twenty]

/-- `add_fillet` on the corner `(0, 20)` of the side-20 square. -/
theorem add_fillet_sq3 :
    add_fillet ((20 : ℝ), 20) (0, 20) (0, 0) 5 =
      (Entity.arc (5, 15) 5 90 (-180), ((5, 20), (0, 15))) := by
  have hpi := Real.pi_pos
  have hA1 : edgeAngle ((20 : ℝ), 20) (0, 20) = 0 := by
    simp only [edgeAngle]
    simpa using atan2_pos_x 20 (by norm_num)
  have hA2 : edgeAngle ((0 : ℝ), 0) (0, 20) = -(π / 2) := by
    simp only [edgeAngle]
    simpa using atan2_neg_y (-20) (by norm_num)
  have hdiff : a_diff ((20 : ℝ), 20) (0, 20) (0, 0) = -(π / 2) := by
    unfold a_diff normAngle
    rw [hA1, hA2]
    rw [if_neg (by linarith), if_neg (by linarith)]
    ring
  have hbr : ¬ (0 : ℝ) < a_diff ((20 : ℝ), 20) (0, 20) (0, 0) := by
    rw [hdiff]; linarith
  have hsa : start_a ((20 : ℝ), 20) (0, 20) (0, 0) = π / 2 := by
    unfold start_a
    rw [if_neg hbr, hA1]
    ring
  have hea : end_a ((20 : ℝ), 20) (0, 20) (0, 0) = -π := by
    unfold end_a
    rw [if_neg hbr, hA2]
    ring
  have hdiv : filletDivisor ((20 : ℝ), 20) (0, 20) (0, 0) = Real.sqrt 2 / 2 := by
    unfold filletDivisor
    rw [hA1, hA2]
    rw [show (-(π / 2) - 0) = -(π / 2) by ring, abs_neg, abs_of_pos (by linarith)]
    rw [show (π / 2) / 2 = π / 4 by ring]
    exact Real.sin_pi_div_four
  have hc : filletCenter ((20 : ℝ), 20) (0, 20) (0, 0) 5 = (5, 15) := by
    simp only [filletCenter, hA1, hA2, hdiv]
    rw [show (0 + -(π / 2)) / 2 = -(π / 4) by ring, Real.cos_neg, Real.sin_neg,
      Real.cos_pi_div_four, Real.sin_pi_div_four, five_div_sqrt2, five_div_sqrt2_neg]
    rw [if_neg]
    · norm_num
    · refine not_lt.mpr (Real.sqrt_le_sqrt ?_)
      norm_num
  have hcr : filletCenterR ((20 : ℝ), 20) (0, 20) (0, 0) 5 = (5, 15) := by
    unfold filletCenterR round3P
    rw [hc]
    norm_num [round3_five, round3_fifteen]
  have harc : arcAngles ((20 : ℝ), 20) (0, 20) (0, 0) = (90, -180) := by
    unfold arcAngles
    rw [if_neg hbr, hsa, hea]
    unfold degrees
    rw [Prod.mk.injEq]
    constructor
    · field_simp
      ring
    · field_simp
      ring
  unfold add_fillet
  rw [hcr, hsa, hea, harc]
  norm_num [Real.cos_pi_div_two, Real.sin_pi_div_two, Real.cos_neg, Real.sin_neg,
    Real.cos_pi, Real.sin_pi, round3_zero, round3_five, round3_fifteen, round3_twenty]

/-! ### The side-20 square contour -/

theorem distance_concrete (x0 y0 x1 y1 d : ℝ) (hd : 0 ≤ d)
    (h : (x1 - x0) ^ 2 + (y1 - y0) ^ 2 = d ^ 2) : distance (x0, y0) (x1, y1) = d := by
  unfold distance
  exact sqrt_eq_of_sq _ _ hd h.symm

theorem chooseRadius_of_fits (p0 p1 p2 : Pt) (radius : ℝ) (skip : Bool)
    (h1 : distance p0 p1 > 2 * radius) (h2 : distance p1 p2 > 2 * radius) :
    chooseRadius p0 p1 p2 radius skip = radius := by
  unfold chooseRadius
  rw [if_pos ⟨h1, h2⟩]

theorem sq_triple0 :
    tripleAt squarePts 0 = (((0 : ℝ), 20), ((0 : ℝ), 0), ((20 : ℝ), 0)) := by
  norm_num [tripleAt, squarePts, round3P, round3_zero, round3_twenty, List.getD]

theorem sq_triple1 :
    tripleAt squarePts 1 = (((0 : ℝ), 0), ((20 : ℝ), 0), ((20 : ℝ), 20)) := by
  norm_num [tripleAt, squarePts, round3P, round3_zero, round3_twenty, List.getD]

theorem sq_triple2 :
    tripleAt squarePts 2 = (((20 : ℝ), 0), ((20 : ℝ), 20), ((0 : ℝ), 20)) := by
  norm_num [tripleAt, squarePts, round3P, round3_zero, round3_twenty, List.getD]

theorem sq_triple3 :
    tripleAt squarePts 3 = (((20 : ℝ), 20), ((0 : ℝ), 20), ((0 : ℝ), 0)) := by
  norm_num [tripleAt, squarePts, round3P, round3_zero, round3_twenty, List.getD]

theorem sq_step0 (st : RState) :
    filletStep squarePts 5 true st 0 =
      ⟨(0, 5), (5, 0), st.out ++ [Entity.arc (5, 5) 5 180 (-90)]⟩ := by
  have hd1 : distance ((0 : ℝ), 20) (0, 0) = 20 :=
    distance_concrete _ _ _ _ 20 (by norm_num) (by norm_num)
  have hd2 : distance ((0 : ℝ), 0) (20, 0) = 20 :=
    distance_concrete _ _ _ _ 20 (by norm_num) (by norm_num)
  have hcr0 : chooseRadius ((0 : ℝ), 20) (0, 0) (20, 0) 5 true = 5 :=
    chooseRadius_of_fits _ _ _ _ _ (by rw [hd1]; norm_num) (by rw [hd2]; norm_num)
  have hf0 := add_fillet_SE 20 20 (by norm_num) (by norm_num)
  simp only [filletStep, sq_triple0]
  norm_num [hcr0, hf0, -Prod.mk_zero_zero]

theorem sq_step1 (st : RState) (hm : st.memory = (5, 0)) :
    filletStep squarePts 5 true st 1 =
      ⟨st.first, (20, 5), st.out ++
        [Entity.arc (15, 5) 5 270 0, Entity.line (5, 0) (15, 0)]⟩ := by
  have hd1 : distance ((0 : ℝ), 0) (20, 0) = 20 :=
    distance_concrete _ _ _ _ 20 (by norm_num) (by norm_num)
  have hd2 : distance ((20 : ℝ), 0) (20, 20) = 20 :=
    distance_concrete _ _ _ _ 20 (by norm_num) (by norm_num)
  have hcr1 : chooseRadius ((0 : ℝ), 0) (20, 0) (20, 20) 5 true = 5 :=
    chooseRadius_of_fits _ _ _ _ _ (by rw [hd1]; norm_num) (by rw [hd2]; norm_num)
  have hdm : distance ((5 : ℝ), 0) (15, 0) = 10 :=
    distance_concrete _ _ _ _ 10 (by norm_num) (by norm_num)
  simp only [filletStep, sq_triple1, hm]
  norm_num [hcr1, add_fillet_sq1, hdm, List.append_assoc, -Prod.mk_zero_zero]

theorem sq_step2 (st : RState) (hm : st.memory = (20, 5)) :
    filletStep squarePts 5 true st 2 =
      ⟨st.first, (15, 20), st.out ++
        [Entity.arc (15, 15) 5 0 90, Entity.line (20, 5) (20, 15)]⟩ := by
  have hd1 : distance ((20 : ℝ), 0) (20, 20) = 20 :=
    distance_concrete _ _ _ _ 20 (by norm_num) (by norm_num)
  have hd2 : distance ((20 : ℝ), 20) (0, 20) = 20 :=
    distance_concrete _ _ _ _ 20 (by norm_num) (by norm_num)
  have hcr2 : chooseRadius ((20 : ℝ), 0) (20, 20) (0, 20) 5 true = 5 :=
    chooseRadius_of_fits _ _ _ _ _ (by rw [hd1]; norm_num) (by rw [hd2]; norm_num)
  have hdm : distance ((20 : ℝ), 5) (20, 15) = 10 :=
    distance_concrete _ _ _ _ 10 (by norm_num) (by norm_num)
  simp only [filletStep, sq_triple2, hm]
  norm_num [hcr2, add_fillet_sq2, hdm, List.append_assoc, -Prod.mk_zero_zero]

theorem sq_step3 (st : RState) (hm : st.memory = (15, 20)) :
    filletStep squarePts 5 true st 3 =
      ⟨st.first, (0, 15), st.out ++
        [Entity.arc (5, 15) 5 90 (-180), Entity.line (15, 20) (5, 20)]⟩ := by
  have hd1 : distance ((20 : ℝ), 20) (0, 20) = 20 :=
    distance_concrete _ _ _ _ 20 (by norm_num) (by norm_num)
  have hd2 : distance ((0 : ℝ), 20) (0, 0) = 20 :=
    distance_concrete _ _ _ _ 20 (by norm_num) (by norm_num)
  have hcr3 : chooseRadius ((20 : ℝ), 20) (0, 20) (0, 0) 5 true = 5 :=
    chooseRadius_of_fits _ _ _ _ _ (by rw [hd1]; norm_num) (by rw [hd2]; norm_num)
  have hdm : distance ((15 : ℝ), 20) (5, 20) = 10 :=
    distance_concrete _ _ _ _ 10 (by norm_num) (by norm_num)
  simp only [filletStep, sq_triple3, hm]
  norm_num [hcr3, add_fillet_sq3, hdm, List.append_assoc, -Prod.mk_zero_zero]

/-- Full evaluation of the rebuild loop on the side-20 square with radius 5:
four arcs, three interior connecting lines and the closing line. -/
theorem square_trace :
    processContour squarePts 5 true = some
      [Entity.arc (5, 5) 5 180 (-90),
       Entity.arc (15, 5) 5 270 0, Entity.line (5, 0) (15, 0),
       Entity.arc (15, 15) 5 0 90, Entity.line (20, 5) (20, 15),
       Entity.arc (5, 15) 5 90 (-180), Entity.line (15, 20) (5, 20),
       Entity.line (0, 15) (0, 5)] := by
  have h0 := sq_step0 ⟨(0, 0), (0, 20), []⟩
  have h1 := sq_step1 ⟨(0, 5), (5, 0), [Entity.arc (5, 5) 5 180 (-90)]⟩ rfl
  have h2 := sq_step2 ⟨(0, 5), (20, 5),
    [Entity.arc (5, 5) 5 180 (-90), Entity.arc (15, 5) 5 270 0,
     Entity.line (5, 0) (15, 0)]⟩ rfl
  have h3 := sq_step3 ⟨(0, 5), (15, 20),
    [Entity.arc (5, 5) 5 180 (-90), Entity.arc (15, 5) 5 270 0,
     Entity.line (5, 0) (15, 0), Entity.arc (15, 15) 5 0 90,
     Entity.line (20, 5) (20, 15)]⟩ rfl
  simp only [List.nil_append, List.cons_append, List.append_nil] at h0 h1 h2 h3
  have hstart : processContour squarePts 5 true = some
      ((((List.range 4).foldl (filletStep squarePts 5 true)
        ⟨(0, 0), (0, 20), []⟩).out) ++
       [Entity.line ((List.range 4).foldl (filletStep squarePts 5 true)
          ⟨(0, 0), (0, 20), []⟩).memory
        ((List.range 4).foldl (filletStep squarePts 5 true)
          ⟨(0, 0), (0, 20), []⟩).first]) := rfl
  rw [hstart]
  rw [show List.range 4 = [0, 1, 2, 3] from rfl]
  rw [List.foldl_cons, List.foldl_cons, List.foldl_cons, List.foldl_cons,
    List.foldl_nil, h0, h1, h2, h3]
  rfl

/-! ### Rounding error and perturbation bounds -/

theorem round3_err (x : ℝ) : |round3 x - x| ≤ 1 / 2000 := by
  unfold round3
  have h := abs_sub_round (x * 1000)
  rw [show ((round (x * 1000) : ℤ) : ℝ) / 1000 - x =
    (((round (x * 1000) : ℤ) : ℝ) - x * 1000) / 1000 by ring]
  rw [abs_div, abs_sub_comm, abs_of_pos (show (0 : ℝ) < 1000 by norm_num)]
  linarith

theorem cross_abs_le (v w : Pt) :
    |cross v w| ≤ Real.sqrt (v.1 ^ 2 + v.2 ^ 2) * Real.sqrt (w.1 ^ 2 + w.2 ^ 2) := by
  have h : (cross v w) ^ 2 ≤ (v.1 ^ 2 + v.2 ^ 2) * (w.1 ^ 2 + w.2 ^ 2) := by
    unfold cross
    nlinarith [sq_nonneg (v.1 * w.1 + v.2 * w.2)]
  calc |cross v w| = Real.sqrt ((cross v w) ^ 2) := (Real.sqrt_sq_eq_abs _).symm
    _ ≤ Real.sqrt ((v.1 ^ 2 + v.2 ^ 2) * (w.1 ^ 2 + w.2 ^ 2)) := Real.sqrt_le_sqrt h
    _ = _ := Real.sqrt_mul (by positivity) _

theorem distance_comm (p q : Pt) : distance p q = distance q p := by
  unfold distance
  rw [show (q.1 - p.1) ^ 2 + (q.2 - p.2) ^ 2 = (p.1 - q.1) ^ 2 + (p.2 - q.2) ^ 2 by ring]

theorem distance_nonneg (p q : Pt) : 0 ≤ distance p q := Real.sqrt_nonneg _

/-- Moving the query point by `ε` moves the point-line distance by at most `ε`. -/
theorem distToLine_sub_le (q q' a b : Pt) (hab : distance a b ≠ 0) :
    |distToLine q' a b - distToLine q a b| ≤ distance q q' := by
  have habpos : 0 < distance a b := lt_of_le_of_ne (distance_nonneg a b) (Ne.symm hab)
  unfold distToLine
  rw [div_sub_div_same, abs_div, abs_of_pos habpos]
  rw [div_le_iff₀ habpos]
  have h1 : |cross (q'.1 - a.1, q'.2 - a.2) (b.1 - a.1, b.2 - a.2) -
      cross (q.1 - a.1, q.2 - a.2) (b.1 - a.1, b.2 - a.2)| ≤
      distance q q' * distance a b := by
    have he : cross (q'.1 - a.1, q'.2 - a.2) (b.1 - a.1, b.2 - a.2) -
        cross (q.1 - a.1, q.2 - a.2) (b.1 - a.1, b.2 - a.2) =
        cross (q'.1 - q.1, q'.2 - q.2) (b.1 - a.1, b.2 - a.2) := by
      unfold cross
      ring
    rw [he]
    have := cross_abs_le (q'.1 - q.1, q'.2 - q.2) (b.1 - a.1, b.2 - a.2)
    simpa [distance] using this
  exact le_trans (abs_abs_sub_abs_le_abs_sub _ _) h1

theorem distance_le_of_coords (p q : Pt) (e : ℝ) (he : 0 ≤ e)
    (h1 : |q.1 - p.1| ≤ e) (h2 : |q.2 - p.2| ≤ e) :
    distance p q ≤ e * Real.sqrt 2 := by
  unfold distance
  have hb : (q.1 - p.1) ^ 2 + (q.2 - p.2) ^ 2 ≤ e ^ 2 * 2 := by
    have a1 := sq_le_sq' (neg_le_of_abs_le h1) (le_of_abs_le h1)
    have a2 := sq_le_sq' (neg_le_of_abs_le h2) (le_of_abs_le h2)
    nlinarith
  calc Real.sqrt ((q.1 - p.1) ^ 2 + (q.2 - p.2) ^ 2)
      ≤ Real.sqrt (e ^ 2 * 2) := Real.sqrt_le_sqrt hb
    _ = e * Real.sqrt 2 := by
        rw [Real.sqrt_mul (by positivity), Real.sqrt_sq he]

theorem sqrt_two_le : Real.sqrt 2 ≤ 3 / 2 := by
  rw [show (3 / 2 : ℝ) = Real.sqrt ((3 / 2) ^ 2) by rw [Real.sqrt_sq]; norm_num]
  exact Real.sqrt_le_sqrt (by norm_num)

theorem distance_round3P (p : Pt) : distance p (round3P p) ≤ 1 / 1000 := by
  have h := distance_le_of_coords p (round3P p) (1 / 2000) (by norm_num)
    (by simpa [round3P] using round3_err p.1)
    (by simpa [round3P] using round3_err p.2)
  calc distance p (round3P p) ≤ 1 / 2000 * Real.sqrt 2 := h
    _ ≤ 1 / 2000 * (3 / 2) := by nlinarith [sqrt_two_le, sqrt_two_pos]
    _ ≤ 1 / 1000 := by norm_num

/-! ### Polar representation of `atan2` and angle sign analysis -/

theorem atan2_bounds (y x : ℝ) : -π < atan2 y x ∧ atan2 y x ≤ π :=
  ⟨Complex.neg_pi_lt_arg _, Complex.arg_le_pi _⟩

theorem atan2_polar (y x : ℝ) (h : ¬(x = 0 ∧ y = 0)) :
    x = Real.sqrt (x ^ 2 + y ^ 2) * Real.cos (atan2 y x) ∧
    y = Real.sqrt (x ^ 2 + y ^ 2) * Real.sin (atan2 y x) := by
  have hz : (⟨x, y⟩ : ℂ) ≠ 0 := by
    intro hc
    exact h ⟨congrArg Complex.re hc, congrArg Complex.im hc⟩
  have habs : Complex.abs ⟨x, y⟩ = Real.sqrt (x ^ 2 + y ^ 2) := by
    rw [Complex.abs_apply, Complex.normSq_mk]
    rw [show x * x + y * y = x ^ 2 + y ^ 2 by ring]
  have hpos : 0 < Real.sqrt (x ^ 2 + y ^ 2) := by
    rw [← habs]
    exact Complex.abs.pos hz
  constructor
  · have hcos := Complex.cos_arg hz
    unfold atan2
    rw [hcos, habs]
    field_simp
  · have hsin := Complex.sin_arg (⟨x, y⟩ : ℂ)
    unfold atan2
    rw [hsin, habs]
    field_simp

/-- On `(-2π, 2π)`, the divisor `sin (|d| / 2)` is `|sin (d / 2)|`, and it is
positive as soon as `d ≠ 0`. -/
theorem half_sin (d : ℝ) (h1 : -(2 * π) < d) (h2 : d < 2 * π) (h0 : d ≠ 0) :
    Real.sin (|d| / 2) = |Real.sin (d / 2)| ∧ 0 < Real.sin (|d| / 2) := by
  have hpi := Real.pi_pos
  rcases lt_or_gt_of_ne h0 with hneg | hpos
  · have habs : |d| = -d := abs_of_neg hneg
    have hs : Real.sin (d / 2) < 0 :=
      Real.sin_neg_of_neg_of_neg_pi_lt (by linarith) (by linarith)
    constructor
    · rw [habs, show -d / 2 = -(d / 2) by ring, Real.sin_neg, abs_of_neg hs]
    · rw [habs, show -d / 2 = -(d / 2) by ring, Real.sin_neg]
      linarith
  · have habs : |d| = d := abs_of_pos hpos
    have hs : 0 < Real.sin (d / 2) :=
      Real.sin_pos_of_pos_of_lt_pi (by linarith) (by linarith)
    constructor
    · rw [habs, abs_of_pos hs]
    · rw [habs]
      exact hs

/-- The sign of the chosen centre (`-1` when the second candidate is closer,
i.e. when `cos (d/2) < 0`) matches the sign of the `a_diff` branch, in the
sense needed for tangency: `s * sin (d/2) = σ * sin (|d|/2)`. -/
theorem sign_match (d : ℝ) (h1 : -(2 * π) < d) (h2 : d < 2 * π)
    (hs : Real.sin d ≠ 0) :
    (if Real.cos (d / 2) < 0 then (-1 : ℝ) else 1) * Real.sin (d / 2) =
    (if 0 < normAngle d then (1 : ℝ) else -1) * Real.sin (|d| / 2) := by
  have hpi := Real.pi_pos
  have h0 : d ≠ 0 := by
    intro h
    exact hs (by rw [h, Real.sin_zero])
  have hnpi : d ≠ π := by
    intro h
    exact hs (by rw [h, Real.sin_pi])
  have hnnegpi : d ≠ -π := by
    intro h
    apply hs
    rw [h]
    simp
  rcases lt_or_gt_of_ne h0 with hneg | hpos
  · rcases lt_or_gt_of_ne hnnegpi with hlt | hgt
    · -- d ∈ (-2π, -π): normalisation adds 2π, branch sign +1, cos (d/2) < 0
      have hcos : Real.cos (d / 2) < 0 := by
        have hc : Real.cos (-(d / 2)) < 0 :=
          Real.cos_neg_of_pi_div_two_lt_of_lt (by linarith) (by linarith)
        rwa [Real.cos_neg] at hc
      have hN : (0 : ℝ) < normAngle d := by
        unfold normAngle
        rw [if_pos hlt]
        linarith
      rw [if_pos hcos, if_pos hN, abs_of_neg hneg, show -d / 2 = -(d / 2) by ring,
        Real.sin_neg]
      ring
    · -- d ∈ (-π, 0): no normalisation, branch sign -1, cos (d/2) > 0
      have hcos : 0 < Real.cos (d / 2) :=
        Real.cos_pos_of_mem_Ioo ⟨by linarith, by linarith⟩
      have hN : ¬ (0 : ℝ) < normAngle d := by
        unfold normAngle
        rw [if_neg (by linarith), if_neg (by linarith)]
        linarith
      rw [if_neg (not_lt.mpr hcos.le), if_neg hN, abs_of_neg hneg,
        show -d / 2 = -(d / 2) by ring, Real.sin_neg]
      ring
  · rcases lt_or_gt_of_ne hnpi with hlt | hgt
    · -- d ∈ (0, π): no normalisation, branch sign +1, cos (d/2) > 0
      have hcos : 0 < Real.cos (d / 2) :=
        Real.cos_pos_of_mem_Ioo ⟨by linarith, by linarith⟩
      have hN : (0 : ℝ) < normAngle d := by
        unfold normAngle
        rw [if_neg (by linarith), if_neg (by linarith)]
        linarith
      rw [if_neg (not_lt.mpr hcos.le), if_pos hN, abs_of_pos hpos]
    · -- d ∈ (π, 2π): normalisation subtracts 2π, branch sign -1, cos (d/2) < 0
      have hcos : Real.cos (d / 2) < 0 :=
        Real.cos_neg_of_pi_div_two_lt_of_lt (by linarith) (by linarith)
      have hN : ¬ (0 : ℝ) < normAngle d := by
        unfold normAngle
        rw [if_neg (by linarith), if_pos (by linarith)]
        linarith
      rw [if_pos hcos, if_neg hN, abs_of_pos hpos]

set_option maxHeartbeats 1600000 in
/-- C1 (amended): for every non-collinear corner `p0, p1, p2` and positive
radius `r`, the rounded centre chosen by `add_fillet` lies within `0.001` of
distance exactly `r` from both edge lines, and each returned (rounded)
tangent point lies within `0.0015` of the corresponding edge line — though
not necessarily on the edge segment, since with `r` large relative to the
edges the tangent points overrun them. -/
theorem fillet_tangency (p0 p1 p2 : Pt) (r : ℝ) (hr : 0 < r)
    (hnc : cross (p0.1 - p1.1, p0.2 - p1.2) (p2.1 - p1.1, p2.2 - p1.2) ≠ 0) :
    |distToLine (filletCenterR p0 p1 p2 r) p0 p1 - r| ≤ 1 / 1000 ∧
    |distToLine (filletCenterR p0 p1 p2 r) p1 p2 - r| ≤ 1 / 1000 ∧
    distToLine (add_fillet p0 p1 p2 r).2.1 p0 p1 ≤ 3 / 2000 ∧
    distToLine (add_fillet p0 p1 p2 r).2.2 p1 p2 ≤ 3 / 2000 := by
  have hpi := Real.pi_pos
  have hv1ne : ¬(p0.1 - p1.1 = 0 ∧ p0.2 - p1.2 = 0) := by
    rintro ⟨h1, h2⟩
    apply hnc
    unfold cross
    dsimp only
    rw [h1, h2]
    ring
  have hv2ne : ¬(p2.1 - p1.1 = 0 ∧ p2.2 - p1.2 = 0) := by
    rintro ⟨h1, h2⟩
    apply hnc
    unfold cross
    dsimp only
    rw [h1, h2]
    ring
  obtain ⟨h1c, h1s⟩ := atan2_polar (p0.2 - p1.2) (p0.1 - p1.1) hv1ne
  obtain ⟨h2c, h2s⟩ := atan2_polar (p2.2 - p1.2) (p2.1 - p1.1) hv2ne
  obtain ⟨ha1l, ha1u⟩ := atan2_bounds (p0.2 - p1.2) (p0.1 - p1.1)
  obtain ⟨ha2l, ha2u⟩ := atan2_bounds (p2.2 - p1.2) (p2.1 - p1.1)
  set n1 := Real.sqrt ((p0.1 - p1.1) ^ 2 + (p0.2 - p1.2) ^ 2) with hn1def
  set n2 := Real.sqrt ((p2.1 - p1.1) ^ 2 + (p2.2 - p1.2) ^ 2) with hn2def
  set a1 := atan2 (p0.2 - p1.2) (p0.1 - p1.1) with ha1def
  set a2 := atan2 (p2.2 - p1.2) (p2.1 - p1.1) with ha2def
  have hn1pos : 0 < n1 := by
    rw [hn1def]
    apply Real.sqrt_pos.mpr
    rcases not_and_or.mp hv1ne with h | h
    · nlinarith [pow_two_pos_of_ne_zero h, sq_nonneg (p0.2 - p1.2)]
    · nlinarith [pow_two_pos_of_ne_zero h, sq_nonneg (p0.1 - p1.1)]
  have hn2pos : 0 < n2 := by
    rw [hn2def]
    apply Real.sqrt_pos.mpr
    rcases not_and_or.mp hv2ne with h | h
    · nlinarith [pow_two_pos_of_ne_zero h, sq_nonneg (p2.2 - p1.2)]
    · nlinarith [pow_two_pos_of_ne_zero h, sq_nonneg (p2.1 - p1.1)]
  set d := a2 - a1 with hd
  have hd1 : -(2 * π) < d := by rw [hd]; linarith
  have hd2 : d < 2 * π := by rw [hd]; linarith
  have hsd : Real.sin d ≠ 0 := by
    intro h
    apply hnc
    unfold cross
    dsimp only
    rw [hd, Real.sin_sub] at h
    linear_combination (p2.2 - p1.2) * h1c + (n1 * Real.cos a1) * h2s -
      (p2.1 - p1.1) * h1s - (n1 * Real.sin a1) * h2c + (n1 * n2) * h
  have h0 : d ≠ 0 := by
    intro h
    exact hsd (by rw [h, Real.sin_zero])
  have hea1 : edgeAngle p0 p1 = a1 := by unfold edgeAngle; rw [ha1def]
  have hea2 : edgeAngle p2 p1 = a2 := by unfold edgeAngle; rw [ha2def]
  have hdivd : filletDivisor p0 p1 p2 = Real.sin (|d| / 2) := by
    unfold filletDivisor
    rw [hea1, hea2, ← hd]
  obtain ⟨habs_eq, hdivpos⟩ := half_sin d hd1 hd2 h0
  set dst := r / Real.sin (|d| / 2) with hdst_def
  have hdstpos : 0 < dst := div_pos hr hdivpos
  have hdst_r : dst * Real.sin (|d| / 2) = r := by
    rw [hdst_def]
    field_simp
  set bis := (a1 + a2) / 2 with hbis
  have e1 : Real.cos a1 * Real.cos bis + Real.sin a1 * Real.sin bis =
      Real.cos (d / 2) := by
    rw [← Real.cos_sub, show a1 - bis = -(d / 2) by rw [hbis, hd]; ring, Real.cos_neg]
  have e2 : Real.cos a2 * Real.cos bis + Real.sin a2 * Real.sin bis =
      Real.cos (d / 2) := by
    rw [← Real.cos_sub, show a2 - bis = d / 2 by rw [hbis, hd]; ring]
  have e3 : Real.sin a1 * Real.cos bis - Real.cos a1 * Real.sin bis =
      -Real.sin (d / 2) := by
    rw [← Real.sin_sub, show a1 - bis = -(d / 2) by rw [hbis, hd]; ring, Real.sin_neg]
  have e4 : Real.sin a2 * Real.cos bis - Real.cos a2 * Real.sin bis =
      Real.sin (d / 2) := by
    rw [← Real.sin_sub, show a2 - bis = d / 2 by rw [hbis, hd]; ring]
  clear_value n1 n2 a1 a2 d dst bis
  have hmid1 : (p0.1 + p2.1) / 2 - p1.1 = (n1 * Real.cos a1 + n2 * Real.cos a2) / 2 := by
    linear_combination h1c / 2 + h2c / 2
  have hmid2 : (p0.2 + p2.2) / 2 - p1.2 = (n1 * Real.sin a1 + n2 * Real.sin a2) / 2 := by
    linear_combination h1s / 2 + h2s / 2
  have hkey : ((p1.1 + dst * Real.cos bis) - (p0.1 + p2.1) / 2) ^ 2 +
      ((p1.2 + dst * Real.sin bis) - (p0.2 + p2.2) / 2) ^ 2 -
      (((p1.1 - dst * Real.cos bis) - (p0.1 + p2.1) / 2) ^ 2 +
       ((p1.2 - dst * Real.sin bis) - (p0.2 + p2.2) / 2) ^ 2) =
      -(2 * dst * (n1 + n2) * Real.cos (d / 2)) := by
    linear_combination (-4 * dst * Real.cos bis) * hmid1 +
      (-4 * dst * Real.sin bis) * hmid2 + (-2 * dst * n1) * e1 + (-2 * dst * n2) * e2
  have hn12 : 0 < n1 + n2 := by linarith
  have hiff : distance ((p0.1 + p2.1) / 2, (p0.2 + p2.2) / 2)
      (p1.1 - dst * Real.cos bis, p1.2 - dst * Real.sin bis) <
      distance ((p0.1 + p2.1) / 2, (p0.2 + p2.2) / 2)
      (p1.1 + dst * Real.cos bis, p1.2 + dst * Real.sin bis) ↔
      Real.cos (d / 2) < 0 := by
    have hs0 : (0 : ℝ) ≤ ((p1.1 - dst * Real.cos bis) - (p0.1 + p2.1) / 2) ^ 2 +
        ((p1.2 - dst * Real.sin bis) - (p0.2 + p2.2) / 2) ^ 2 := by positivity
    unfold distance
    dsimp only
    rw [Real.sqrt_lt_sqrt_iff hs0]
    have hk : 0 < dst * (n1 + n2) := mul_pos hdstpos hn12
    constructor
    · intro h
      by_contra hC
      push_neg at hC
      have hnn : 0 ≤ 2 * (dst * (n1 + n2)) * Real.cos (d / 2) :=
        mul_nonneg (by linarith) hC
      linarith [hkey, hnn]
    · intro h
      have hpos : 0 < 2 * (dst * (n1 + n2)) * -Real.cos (d / 2) :=
        mul_pos (by linarith) (by linarith)
      linarith [hkey, hpos]
  have hchoice : filletCenter p0 p1 p2 r =
      if Real.cos (d / 2) < 0 then
        ((p1.1 - dst * Real.cos bis, p1.2 - dst * Real.sin bis) : Pt)
      else (p1.1 + dst * Real.cos bis, p1.2 + dst * Real.sin bis) := by
    have hdiv_dst : r / filletDivisor p0 p1 p2 = dst := by
      rw [hdivd]
      exact hdst_def.symm
    simp only [filletCenter]
    rw [hea1, hea2, hdiv_dst, ← hbis]
    exact if_congr hiff rfl rfl
  have hsgn_match := sign_match d hd1 hd2 hsd
  set sg : ℝ := if 0 < normAngle d then 1 else -1 with hsg_def
  clear_value sg
  have hsg1 : sg = 1 ∨ sg = -1 := by
    rw [hsg_def]
    by_cases h : 0 < normAngle d
    · left; rw [if_pos h]
    · right; rw [if_neg h]
  obtain ⟨s, hs1, hcen, hssin⟩ :
      ∃ s : ℝ, (s = 1 ∨ s = -1) ∧
        filletCenter p0 p1 p2 r =
          (p1.1 + s * (dst * Real.cos bis), p1.2 + s * (dst * Real.sin bis)) ∧
        s * Real.sin (d / 2) = sg * Real.sin (|d| / 2) := by
    by_cases hcos : Real.cos (d / 2) < 0
    · refine ⟨-1, Or.inr rfl, ?_, ?_⟩
      · rw [hchoice, if_pos hcos]
        rw [Prod.mk.injEq]
        constructor <;> ring
      · have h := hsgn_match
        rw [if_pos hcos] at h
        exact h
    · refine ⟨1, Or.inl rfl, ?_, ?_⟩
      · rw [hchoice, if_neg hcos]
        rw [Prod.mk.injEq]
        constructor <;> ring
      · have h := hsgn_match
        rw [if_neg hcos] at h
        exact h
  have hadiff : a_diff p0 p1 p2 = normAngle d := by
    unfold a_diff
    rw [hea1, hea2, ← hd]
  have hsa : start_a p0 p1 p2 = a1 - sg * (π / 2) := by
    unfold start_a
    rw [hadiff, hea1]
    by_cases h : 0 < normAngle d
    · rw [if_pos h, hsg_def, if_pos h]
      ring
    · rw [if_neg h, hsg_def, if_neg h]
      ring
  have hna : end_a p0 p1 p2 = a2 + sg * (π / 2) := by
    unfold end_a
    rw [hadiff, hea2]
    by_cases h : 0 < normAngle d
    · rw [if_pos h, hsg_def, if_pos h]
      ring
    · rw [if_neg h, hsg_def, if_neg h]
      ring
  have hcos_sa : Real.cos (start_a p0 p1 p2) = sg * Real.sin a1 := by
    rw [hsa]
    rcases hsg1 with h | h <;> rw [h]
    · rw [show a1 - 1 * (π / 2) = a1 - π / 2 by ring, Real.cos_sub]
      simp
    · rw [show a1 - -1 * (π / 2) = a1 + π / 2 by ring, Real.cos_add]
      simp
  have hsin_sa : Real.sin (start_a p0 p1 p2) = -(sg * Real.cos a1) := by
    rw [hsa]
    rcases hsg1 with h | h <;> rw [h]
    · rw [show a1 - 1 * (π / 2) = a1 - π / 2 by ring, Real.sin_sub]
      simp
    · rw [show a1 - -1 * (π / 2) = a1 + π / 2 by ring, Real.sin_add]
      simp
  have hcos_ea : Real.cos (end_a p0 p1 p2) = -(sg * Real.sin a2) := by
    rw [hna]
    rcases hsg1 with h | h <;> rw [h]
    · rw [show a2 + 1 * (π / 2) = a2 + π / 2 by ring, Real.cos_add]
      simp
    · rw [show a2 + -1 * (π / 2) = a2 - π / 2 by ring, Real.cos_sub]
      simp
  have hsin_ea : Real.sin (end_a p0 p1 p2) = sg * Real.cos a2 := by
    rw [hna]
    rcases hsg1 with h | h <;> rw [h]
    · rw [show a2 + 1 * (π / 2) = a2 + π / 2 by ring, Real.sin_add]
      simp
    · rw [show a2 + -1 * (π / 2) = a2 - π / 2 by ring, Real.sin_sub]
      simp
  have hpyth1 : Real.sin a1 ^ 2 + Real.cos a1 ^ 2 = 1 := Real.sin_sq_add_cos_sq a1
  have hpyth2 : Real.sin a2 ^ 2 + Real.cos a2 ^ 2 = 1 := Real.sin_sq_add_cos_sq a2
  have hsds : s * (dst * Real.sin (d / 2)) = sg * r := by
    calc s * (dst * Real.sin (d / 2)) = dst * (s * Real.sin (d / 2)) := by ring
      _ = dst * (sg * Real.sin (|d| / 2)) := by rw [hssin]
      _ = sg * (dst * Real.sin (|d| / 2)) := by ring
      _ = sg * r := by rw [hdst_r]
  have hc1 : (filletCenter p0 p1 p2 r).1 = p1.1 + s * (dst * Real.cos bis) := by
    rw [hcen]
  have hc2 : (filletCenter p0 p1 p2 r).2 = p1.2 + s * (dst * Real.sin bis) := by
    rw [hcen]
  have hcross1 : cross ((filletCenter p0 p1 p2 r).1 - p0.1,
      (filletCenter p0 p1 p2 r).2 - p0.2) (p1.1 - p0.1, p1.2 - p0.2) =
      s * (dst * Real.sin (d / 2)) * n1 := by
    unfold cross
    dsimp only
    rw [hc1, hc2]
    linear_combination (s * dst * Real.sin bis) * h1c +
      (-(s * dst * Real.cos bis)) * h1s + (-(s * dst * n1)) * e3
  have hcross2 : cross ((filletCenter p0 p1 p2 r).1 - p1.1,
      (filletCenter p0 p1 p2 r).2 - p1.2) (p2.1 - p1.1, p2.2 - p1.2) =
      s * (dst * Real.sin (d / 2)) * n2 := by
    unfold cross
    dsimp only
    rw [hc1, hc2]
    linear_combination (s * dst * Real.cos bis) * h2s +
      (-(s * dst * Real.sin bis)) * h2c + (s * dst * n2) * e4
  have habs_sds : |s * (dst * Real.sin (d / 2))| = r := by
    have h1 : |s| = 1 := by
      rcases hs1 with h | h <;> rw [h] <;> norm_num
    rw [abs_mul, h1, one_mul, abs_mul, abs_of_pos hdstpos, ← habs_eq, hdst_r]
  have hdist01 : distance p0 p1 = n1 := by
    rw [distance_comm]
    unfold distance
    rw [hn1def]
  have hdist12 : distance p1 p2 = n2 := by
    unfold distance
    rw [hn2def]
  have hdl1 : distToLine (filletCenter p0 p1 p2 r) p0 p1 = r := by
    unfold distToLine
    rw [hcross1, hdist01, abs_mul, habs_sds, abs_of_pos hn1pos]
    field_simp
  have hdl2 : distToLine (filletCenter p0 p1 p2 r) p1 p2 = r := by
    unfold distToLine
    rw [hcross2, hdist12, abs_mul, habs_sds, abs_of_pos hn2pos]
    field_simp
  have hcrossT1 : cross
      (((filletCenter p0 p1 p2 r).1 + r * Real.cos (start_a p0 p1 p2)) - p0.1,
       ((filletCenter p0 p1 p2 r).2 + r * Real.sin (start_a p0 p1 p2)) - p0.2)
      (p1.1 - p0.1, p1.2 - p0.2) = 0 := by
    have hadd : cross
        (((filletCenter p0 p1 p2 r).1 + r * Real.cos (start_a p0 p1 p2)) - p0.1,
         ((filletCenter p0 p1 p2 r).2 + r * Real.sin (start_a p0 p1 p2)) - p0.2)
        (p1.1 - p0.1, p1.2 - p0.2) =
        cross ((filletCenter p0 p1 p2 r).1 - p0.1,
          (filletCenter p0 p1 p2 r).2 - p0.2) (p1.1 - p0.1, p1.2 - p0.2) +
        r * (Real.cos (start_a p0 p1 p2) * (p1.2 - p0.2) -
          Real.sin (start_a p0 p1 p2) * (p1.1 - p0.1)) := by
      unfold cross
      dsimp only
      ring
    rw [hadd, hcross1, hcos_sa, hsin_sa]
    have hterm : sg * Real.sin a1 * (p1.2 - p0.2) -
        -(sg * Real.cos a1) * (p1.1 - p0.1) = -(sg * n1) := by
      linear_combination (-(sg * Real.sin a1)) * h1s +
        (-(sg * Real.cos a1)) * h1c + (-(sg * n1)) * hpyth1
    rw [hterm]
    linear_combination n1 * hsds
  have hcrossT2 : cross
      (((filletCenter p0 p1 p2 r).1 + r * Real.cos (end_a p0 p1 p2)) - p1.1,
       ((filletCenter p0 p1 p2 r).2 + r * Real.sin (end_a p0 p1 p2)) - p1.2)
      (p2.1 - p1.1, p2.2 - p1.2) = 0 := by
    have hadd : cross
        (((filletCenter p0 p1 p2 r).1 + r * Real.cos (end_a p0 p1 p2)) - p1.1,
         ((filletCenter p0 p1 p2 r).2 + r * Real.sin (end_a p0 p1 p2)) - p1.2)
        (p2.1 - p1.1, p2.2 - p1.2) =
        cross ((filletCenter p0 p1 p2 r).1 - p1.1,
          (filletCenter p0 p1 p2 r).2 - p1.2) (p2.1 - p1.1, p2.2 - p1.2) +
        r * (Real.cos (end_a p0 p1 p2) * (p2.2 - p1.2) -
          Real.sin (end_a p0 p1 p2) * (p2.1 - p1.1)) := by
      unfold cross
      dsimp only
      ring
    rw [hadd, hcross2, hcos_ea, hsin_ea]
    have hterm : -(sg * Real.sin a2) * (p2.2 - p1.2) -
        sg * Real.cos a2 * (p2.1 - p1.1) = -(sg * n2) := by
      linear_combination (-(sg * Real.sin a2)) * h2s +
        (-(sg * Real.cos a2)) * h2c + (-(sg * n2)) * hpyth2
    rw [hterm]
    linear_combination n2 * hsds
  have hdlT1 : distToLine
      ((filletCenter p0 p1 p2 r).1 + r * Real.cos (start_a p0 p1 p2),
       (filletCenter p0 p1 p2 r).2 + r * Real.sin (start_a p0 p1 p2)) p0 p1 = 0 := by
    unfold distToLine
    rw [hcrossT1]
    simp
  have hdlT2 : distToLine
      ((filletCenter p0 p1 p2 r).1 + r * Real.cos (end_a p0 p1 p2),
       (filletCenter p0 p1 p2 r).2 + r * Real.sin (end_a p0 p1 p2)) p1 p2 = 0 := by
    unfold distToLine
    rw [hcrossT2]
    simp
  have hd01ne : distance p0 p1 ≠ 0 := by
    rw [hdist01]
    exact ne_of_gt hn1pos
  have hd12ne : distance p1 p2 ≠ 0 := by
    rw [hdist12]
    exact ne_of_gt hn2pos
  refine ⟨?_, ?_, ?_, ?_⟩
  · have hp := distToLine_sub_le (filletCenter p0 p1 p2 r)
      (filletCenterR p0 p1 p2 r) p0 p1 hd01ne
    rw [hdl1] at hp
    have hrd : distance (filletCenter p0 p1 p2 r) (filletCenterR p0 p1 p2 r) ≤
        1 / 1000 := distance_round3P _
    calc |distToLine (filletCenterR p0 p1 p2 r) p0 p1 - r| ≤
        distance (filletCenter p0 p1 p2 r) (filletCenterR p0 p1 p2 r) := hp
      _ ≤ 1 / 1000 := hrd
  · have hp := distToLine_sub_le (filletCenter p0 p1 p2 r)
      (filletCenterR p0 p1 p2 r) p1 p2 hd12ne
    rw [hdl2] at hp
    have hrd : distance (filletCenter p0 p1 p2 r) (filletCenterR p0 p1 p2 r) ≤
        1 / 1000 := distance_round3P _
    calc |distToLine (filletCenterR p0 p1 p2 r) p1 p2 - r| ≤
        distance (filletCenter p0 p1 p2 r) (filletCenterR p0 p1 p2 r) := hp
      _ ≤ 1 / 1000 := hrd
  · -- first tangent point
    have ht1 : (add_fillet p0 p1 p2 r).2.1 =
        (round3 (round3 ((filletCenter p0 p1 p2 r).1) + r * Real.cos (start_a p0 p1 p2)),
         round3 (round3 ((filletCenter p0 p1 p2 r).2) + r * Real.sin (start_a p0 p1 p2))) := rfl
    have hco1 : |(add_fillet p0 p1 p2 r).2.1.1 -
        ((filletCenter p0 p1 p2 r).1 + r * Real.cos (start_a p0 p1 p2))| ≤ 1 / 1000 := by
      rw [ht1]
      dsimp only
      have hsplit : round3 (round3 ((filletCenter p0 p1 p2 r).1) +
          r * Real.cos (start_a p0 p1 p2)) -
          ((filletCenter p0 p1 p2 r).1 + r * Real.cos (start_a p0 p1 p2)) =
          (round3 (round3 ((filletCenter p0 p1 p2 r).1) +
            r * Real.cos (start_a p0 p1 p2)) -
           (round3 ((filletCenter p0 p1 p2 r).1) + r * Real.cos (start_a p0 p1 p2))) +
          (round3 ((filletCenter p0 p1 p2 r).1) - (filletCenter p0 p1 p2 r).1) := by
        ring
      rw [hsplit]
      calc |_ + _| ≤ _ + _ := abs_add _ _
        _ ≤ 1 / 2000 + 1 / 2000 := add_le_add (round3_err _) (round3_err _)
        _ = 1 / 1000 := by norm_num
    have hco2 : |(add_fillet p0 p1 p2 r).2.1.2 -
        ((filletCenter p0 p1 p2 r).2 + r * Real.sin (start_a p0 p1 p2))| ≤ 1 / 1000 := by
      rw [ht1]
      dsimp only
      have hsplit : round3 (round3 ((filletCenter p0 p1 p2 r).2) +
          r * Real.sin (start_a p0 p1 p2)) -
          ((filletCenter p0 p1 p2 r).2 + r * Real.sin (start_a p0 p1 p2)) =
          (round3 (round3 ((filletCenter p0 p1 p2 r).2) +
            r * Real.sin (start_a p0 p1 p2)) -
           (round3 ((filletCenter p0 p1 p2 r).2) + r * Real.sin (start_a p0 p1 p2))) +
          (round3 ((filletCenter p0 p1 p2 r).2) - (filletCenter p0 p1 p2 r).2) := by
        ring
      rw [hsplit]
      calc |_ + _| ≤ _ + _ := abs_add _ _
        _ ≤ 1 / 2000 + 1 / 2000 := add_le_add (round3_err _) (round3_err _)
        _ = 1 / 1000 := by norm_num
    have hdistT : distance
        ((filletCenter p0 p1 p2 r).1 + r * Real.cos (start_a p0 p1 p2),
         (filletCenter p0 p1 p2 r).2 + r * Real.sin (start_a p0 p1 p2))
        ((add_fillet p0 p1 p2 r).2.1) ≤ 3 / 2000 := by
      have h := distance_le_of_coords
        ((filletCenter p0 p1 p2 r).1 + r * Real.cos (start_a p0 p1 p2),
         (filletCenter p0 p1 p2 r).2 + r * Real.sin (start_a p0 p1 p2))
        ((add_fillet p0 p1 p2 r).2.1) (1 / 1000) (by norm_num) (by exact hco1) (by exact hco2)
      calc distance _ _ ≤ 1 / 1000 * Real.sqrt 2 := h
        _ ≤ 1 / 1000 * (3 / 2) :=
          mul_le_mul_of_nonneg_left sqrt_two_le (by norm_num)
        _ = 3 / 2000 := by norm_num
    have hp := distToLine_sub_le
      ((filletCenter p0 p1 p2 r).1 + r * Real.cos (start_a p0 p1 p2),
       (filletCenter p0 p1 p2 r).2 + r * Real.sin (start_a p0 p1 p2))
      ((add_fillet p0 p1 p2 r).2.1) p0 p1 hd01ne
    rw [hdlT1] at hp
    have := le_of_abs_le hp
    linarith [hdistT]
  · -- second tangent point
    have ht2 : (add_fillet p0 p1 p2 r).2.2 =
        (round3 (round3 ((filletCenter p0 p1 p2 r).1) + r * Real.cos (end_a p0 p1 p2)),
         round3 (round3 ((filletCenter p0 p1 p2 r).2) + r * Real.sin (end_a p0 p1 p2))) := rfl
    have hco1 : |(add_fillet p0 p1 p2 r).2.2.1 -
        ((filletCenter p0 p1 p2 r).1 + r * Real.cos (end_a p0 p1 p2))| ≤ 1 / 1000 := by
      rw [ht2]
      dsimp only
      have hsplit : round3 (round3 ((filletCenter p0 p1 p2 r).1) +
          r * Real.cos (end_a p0 p1 p2)) -
          ((filletCenter p0 p1 p2 r).1 + r * Real.cos (end_a p0 p1 p2)) =
          (round3 (round3 ((filletCenter p0 p1 p2 r).1) +
            r * Real.cos (end_a p0 p1 p2)) -
           (round3 ((filletCenter p0 p1 p2 r).1) + r * Real.cos (end_a p0 p1 p2))) +
          (round3 ((filletCenter p0 p1 p2 r).1) - (filletCenter p0 p1 p2 r).1) := by
        ring
      rw [hsplit]
      calc |_ + _| ≤ _ + _ := abs_add _ _
        _ ≤ 1 / 2000 + 1 / 2000 := add_le_add (round3_err _) (round3_err _)
        _ = 1 / 1000 := by norm_num
    have hco2 : |(add_fillet p0 p1 p2 r).2.2.2 -
        ((filletCenter p0 p1 p2 r).2 + r * Real.sin (end_a p0 p1 p2))| ≤ 1 / 1000 := by
      rw [ht2]
      dsimp only
      have hsplit : round3 (round3 ((filletCenter p0 p1 p2 r).2) +
          r * Real.sin (end_a p0 p1 p2)) -
          ((filletCenter p0 p1 p2 r).2 + r * Real.sin (end_a p0 p1 p2)) =
          (round3 (round3 ((filletCenter p0 p1 p2 r).2) +
            r * Real.sin (end_a p0 p1 p2)) -
           (round3 ((filletCenter p0 p1 p2 r).2) + r * Real.sin (end_a p0 p1 p2))) +
          (round3 ((filletCenter p0 p1 p2 r).2) - (filletCenter p0 p1 p2 r).2) := by
        ring
      rw [hsplit]
      calc |_ + _| ≤ _ + _ := abs_add _ _
        _ ≤ 1 / 2000 + 1 / 2000 := add_le_add (round3_err _) (round3_err _)
        _ = 1 / 1000 := by norm_num
    have hdistT : distance
        ((filletCenter p0 p1 p2 r).1 + r * Real.cos (end_a p0 p1 p2),
         (filletCenter p0 p1 p2 r).2 + r * Real.sin (end_a p0 p1 p2))
        ((add_fillet p0 p1 p2 r).2.2) ≤ 3 / 2000 := by
      have h := distance_le_of_coords
        ((filletCenter p0 p1 p2 r).1 + r * Real.cos (end_a p0 p1 p2),
         (filletCenter p0 p1 p2 r).2 + r * Real.sin (end_a p0 p1 p2))
        ((add_fillet p0 p1 p2 r).2.2) (1 / 1000) (by norm_num) (by exact hco1) (by exact hco2)
      calc distance _ _ ≤ 1 / 1000 * Real.sqrt 2 := h
        _ ≤ 1 / 1000 * (3 / 2) :=
          mul_le_mul_of_nonneg_left sqrt_two_le (by norm_num)
        _ = 3 / 2000 := by norm_num
    have hp := distToLine_sub_le
      ((filletCenter p0 p1 p2 r).1 + r * Real.cos (end_a p0 p1 p2),
       (filletCenter p0 p1 p2 r).2 + r * Real.sin (end_a p0 p1 p2))
      ((add_fillet p0 p1 p2 r).2.2) p1 p2 hd12ne
    rw [hdlT2] at hp
    have := le_of_abs_le hp
    linarith [hdistT]

/-! ### Concrete fillet evaluations for the claims -/

theorem filletCenterR_right_angle :
    filletCenterR ((0 : ℝ), 10) (0, 0) (10, 0) 5 = (5, 5) := by
  have h := add_fillet_SE 10 10 (by norm_num) (by norm_num)
  have h1 := congrArg Prod.fst h
  simp only [add_fillet] at h1
  rw [Entity.arc.injEq] at h1
  exact h1.1

/-- C4: `add_fillet` on the right-angle corner `p0 = (0, 10)`, `p1 = (0, 0)`,
`p2 = (10, 0)` with radius 5 returns the tangent points `(0, 5)` and `(5, 0)`
in this order and an arc centred at `(5, 5)`; every coordinate is within
`0.001` of these values (in fact exactly equal). -/
theorem C4_right_angle_fillet :
    |(add_fillet ((0 : ℝ), 10) (0, 0) (10, 0) 5).2.1.1 - 0| ≤ 1 / 1000 ∧
    |(add_fillet ((0 : ℝ), 10) (0, 0) (10, 0) 5).2.1.2 - 5| ≤ 1 / 1000 ∧
    |(add_fillet ((0 : ℝ), 10) (0, 0) (10, 0) 5).2.2.1 - 5| ≤ 1 / 1000 ∧
    |(add_fillet ((0 : ℝ), 10) (0, 0) (10, 0) 5).2.2.2 - 0| ≤ 1 / 1000 ∧
    |(filletCenterR ((0 : ℝ), 10) (0, 0) (10, 0) 5).1 - 5| ≤ 1 / 1000 ∧
    |(filletCenterR ((0 : ℝ), 10) (0, 0) (10, 0) 5).2 - 5| ≤ 1 / 1000 := by
  have h := add_fillet_SE 10 10 (by norm_num) (by norm_num)
  rw [h, filletCenterR_right_angle]
  norm_num

/-- C2: rebuilding the closed side-20 square contour with radius 5 (skip
policy on, as in `main`) emits exactly 4 arcs and exactly 4 lines, and every
emitted line has length 10. -/
theorem C2_square_rebuild :
    ∃ l, processContour squarePts 5 true = some l ∧
      countArcs l = 4 ∧ countLines l = 4 ∧
      ∀ a b : Pt, Entity.line a b ∈ l → distance a b = 10 := by
  refine ⟨_, square_trace, rfl, rfl, ?_⟩
  intro a b hmem
  simp only [List.mem_cons, List.not_mem_nil, or_false] at hmem
  rcases hmem with h | h | h | h | h | h | h | h
  · exact absurd h (by simp)
  · exact absurd h (by simp)
  · rw [Entity.line.injEq] at h
    obtain ⟨h1, h2⟩ := h
    subst h1; subst h2
    exact distance_concrete _ _ _ _ 10 (by norm_num) (by norm_num)
  · exact absurd h (by simp)
  · rw [Entity.line.injEq] at h
    obtain ⟨h1, h2⟩ := h
    subst h1; subst h2
    exact distance_concrete _ _ _ _ 10 (by norm_num) (by norm_num)
  · exact absurd h (by simp)
  · rw [Entity.line.injEq] at h
    obtain ⟨h1, h2⟩ := h
    subst h1; subst h2
    exact distance_concrete _ _ _ _ 10 (by norm_num) (by norm_num)
  · rw [Entity.line.injEq] at h
    obtain ⟨h1, h2⟩ := h
    subst h1; subst h2
    exact distance_concrete _ _ _ _ 10 (by norm_num) (by norm_num)

/-- C1, counterexample to the claim as stated: at the non-collinear corner
`p0 = (0, 1)`, `p1 = (0, 0)`, `p2 = (1, 0)` with radius 5 (positive), the
first returned tangent point is `(0, 5)`, which is not within `0.001` of any
point of the segment from `p0` to `p1`: the tangent point overruns the edge
whenever the radius is large relative to the edge. -/
theorem C1_counterexample :
    cross (((0 : ℝ), 1).1 - ((0 : ℝ), 0).1, ((0 : ℝ), 1).2 - ((0 : ℝ), 0).2)
      (((1 : ℝ), 0).1 - ((0 : ℝ), 0).1, ((1 : ℝ), 0).2 - ((0 : ℝ), 0).2) ≠ 0 ∧
    (0 : ℝ) < 5 ∧
    (add_fillet ((0 : ℝ), 1) (0, 0) (1, 0) 5).2.1 = (0, 5) ∧
    ¬ onSegmentWithin (0, 5) ((0 : ℝ), 1) (0, 0) (1 / 1000) := by
  refine ⟨by unfold cross; norm_num, by norm_num, ?_, ?_⟩
  · have h := add_fillet_SE 1 1 (by norm_num) (by norm_num)
    rw [h]
  · rintro ⟨t, ht0, ht1, hd⟩
    have heval : distance ((0 : ℝ), 5)
        (((0 : ℝ), 1).1 + t * (((0 : ℝ), 0).1 - ((0 : ℝ), 1).1),
         ((0 : ℝ), 1).2 + t * (((0 : ℝ), 0).2 - ((0 : ℝ), 1).2)) = 4 + t := by
      unfold distance
      dsimp only
      rw [show (0 + t * (0 - 0) - 0 : ℝ) ^ 2 + (1 + t * (0 - 1) - 5) ^ 2 =
        (4 + t) ^ 2 by ring]
      exact Real.sqrt_sq (by linarith)
    rw [heval] at hd
    linarith

/-- C7: the code does not skip an empty vertex list; the unguarded
`points[-1]` access of line 89 fails on it (modelled as `none`) before any
geometry is emitted. -/
theorem C7_empty_points (radius : ℝ) (skip : Bool) :
    processContour [] radius skip = none := rfl

/-- Trace of the rebuild loop on the degenerate one-vertex contour `[(0, 0)]`
with radius 1: the vertex is not filleted, and the loop-closing line is
emitted even though it has zero length. -/
theorem singleton_trace :
    processContour [((0 : ℝ), 0)] 1 true = some [Entity.line (0, 0) (0, 0)] := by
  have htrip : tripleAt [((0 : ℝ), 0)] 0 = ((0, 0), (0, 0), (0, 0)) := by
    norm_num [tripleAt, round3P, round3_zero, List.getD, -Prod.mk_zero_zero]
  have hd0 : distance ((0 : ℝ), 0) (0, 0) = 0 := by
    unfold distance
    norm_num
  have hcr : chooseRadius ((0 : ℝ), 0) (0, 0) (0, 0) 1 true = 0 := by
    unfold chooseRadius
    rw [hd0]
    norm_num
  have hstep : filletStep [((0 : ℝ), 0)] 1 true ⟨(0, 0), (0, 0), []⟩ 0 =
      ⟨(0, 0), (0, 0), []⟩ := by
    simp only [filletStep, htrip]
    norm_num [hcr, -Prod.mk_zero_zero]
  have hstart : processContour [((0 : ℝ), 0)] 1 true = some
      ((((List.range 1).foldl (filletStep [((0 : ℝ), 0)] 1 true)
        ⟨(0, 0), (0, 0), []⟩)).out ++
       [Entity.line ((List.range 1).foldl (filletStep [((0 : ℝ), 0)] 1 true)
          ⟨(0, 0), (0, 0), []⟩).memory
        ((List.range 1).foldl (filletStep [((0 : ℝ), 0)] 1 true)
          ⟨(0, 0), (0, 0), []⟩).first]) := rfl
  rw [hstart, show List.range 1 = [0] from rfl, List.foldl_cons, List.foldl_nil, hstep]
  rfl

/-- C5: in the rebuild loop, an interior connecting line (index `i > 0`, at a
filleted vertex) is emitted if and only if the distance from the running
position to the first tangent point is nonzero, while the loop-closing line
is always the last emitted entity of a non-empty contour, even when it has
zero length (as on the one-vertex contour `[(0, 0)]`). -/
theorem C5_connecting_lines :
    (∀ (points : List Pt) (radius : ℝ) (skip : Bool) (st : RState) (i : ℕ),
      i ≠ 0 →
      chooseRadius (tripleAt points i).1 (tripleAt points i).2.1
        (tripleAt points i).2.2 radius skip ≠ 0 →
      distance st.memory (add_fillet (tripleAt points i).1 (tripleAt points i).2.1
        (tripleAt points i).2.2 (chooseRadius (tripleAt points i).1
          (tripleAt points i).2.1 (tripleAt points i).2.2 radius skip)).2.1 ≠ 0 →
      (filletStep points radius skip st i).out = st.out ++
        [(add_fillet (tripleAt points i).1 (tripleAt points i).2.1
          (tripleAt points i).2.2 (chooseRadius (tripleAt points i).1
            (tripleAt points i).2.1 (tripleAt points i).2.2 radius skip)).1,
         Entity.line st.memory (add_fillet (tripleAt points i).1
          (tripleAt points i).2.1 (tripleAt points i).2.2
          (chooseRadius (tripleAt points i).1 (tripleAt points i).2.1
            (tripleAt points i).2.2 radius skip)).2.1]) ∧
    (∀ (points : List Pt) (radius : ℝ) (skip : Bool) (st : RState) (i : ℕ),
      i ≠ 0 →
      chooseRadius (tripleAt points i).1 (tripleAt points i).2.1
        (tripleAt points i).2.2 radius skip ≠ 0 →
      distance st.memory (add_fillet (tripleAt points i).1 (tripleAt points i).2.1
        (tripleAt points i).2.2 (chooseRadius (tripleAt points i).1
          (tripleAt points i).2.1 (tripleAt points i).2.2 radius skip)).2.1 = 0 →
      (filletStep points radius skip st i).out = st.out ++
        [(add_fillet (tripleAt points i).1 (tripleAt points i).2.1
          (tripleAt points i).2.2 (chooseRadius (tripleAt points i).1
            (tripleAt points i).2.1 (tripleAt points i).2.2 radius skip)).1]) ∧
    (∀ (points : List Pt) (radius : ℝ) (skip : Bool), points ≠ [] →
      ∃ rest a b, processContour points radius skip = some (rest ++ [Entity.line a b])) ∧
    processContour [((0 : ℝ), 0)] 1 true = some [Entity.line (0, 0) (0, 0)] := by
  refine ⟨?_, ?_, ?_, singleton_trace⟩
  · intro points radius skip st i hi hr hd
    simp only [filletStep]
    rw [if_pos hr, if_pos hi, if_pos hd]
    simp [List.append_assoc]
  · intro points radius skip st i hi hr hd
    simp only [filletStep]
    rw [if_pos hr, if_pos hi, if_neg (by rw [hd]; simp)]
    simp [List.append_assoc]
  · intro points radius skip hne
    cases points with
    | nil => exact absurd rfl hne
    | cons p ps =>
        exact ⟨_, _, _, rfl⟩

/-- C3 counterexample to the claim as stated: at the right-angle corner with
both adjacent edges of length exactly `2 × radius = 10` and `skip = False`,
the vertex is filleted at the configured radius 5 although the edges do not
strictly exceed `2 × radius`. -/
theorem C3_counterexample :
    distance ((0 : ℝ), 10) (0, 0) = 10 ∧ distance ((0 : ℝ), 0) (10, 0) = 10 ∧
    ¬(distance ((0 : ℝ), 10) (0, 0) > 2 * 5 ∧ distance ((0 : ℝ), 0) (10, 0) > 2 * 5) ∧
    chooseRadius ((0 : ℝ), 10) (0, 0) (10, 0) 5 false = 5 := by
  have h1 : distance ((0 : ℝ), 10) (0, 0) = 10 :=
    distance_concrete _ _ _ _ 10 (by norm_num) (by norm_num)
  have h2 : distance ((0 : ℝ), 0) (10, 0) = 10 :=
    distance_concrete _ _ _ _ 10 (by norm_num) (by norm_num)
  refine ⟨h1, h2, ?_, ?_⟩
  · rintro ⟨hh, -⟩
    rw [h1] at hh
    norm_num at hh
  · unfold chooseRadius
    rw [h1, h2]
    norm_num

/-- C3 (amended): with both (rounded) adjacent edges of length 6 and radius 5
the fillet radius is 3 under `skip = False` and 0 under `skip = True` (a
straight pass-through line to the vertex is emitted instead of an arc); for
positive radius a vertex is filleted at the configured radius iff both edges
strictly exceed `2 × radius` when `skip = True`, and iff both edges are at
least `2 × radius` when `skip = False` (edges of length exactly `2 × radius`
also keep the configured radius there). -/
theorem C3_radius_policy :
    (∀ p0 p1 p2 : Pt, distance p0 p1 = 6 → distance p1 p2 = 6 →
      chooseRadius p0 p1 p2 5 false = 3 ∧ chooseRadius p0 p1 p2 5 true = 0) ∧
    (∀ (p0 p1 p2 : Pt) (radius : ℝ), 0 < radius →
      (chooseRadius p0 p1 p2 radius true = radius ↔
        distance p0 p1 > 2 * radius ∧ distance p1 p2 > 2 * radius)) ∧
    (∀ (p0 p1 p2 : Pt) (radius : ℝ), 0 < radius →
      (chooseRadius p0 p1 p2 radius false = radius ↔
        distance p0 p1 ≥ 2 * radius ∧ distance p1 p2 ≥ 2 * radius)) ∧
    (∀ (points : List Pt) (radius : ℝ) (skip : Bool) (st : RState) (i : ℕ),
      i ≠ 0 →
      chooseRadius (tripleAt points i).1 (tripleAt points i).2.1
        (tripleAt points i).2.2 radius skip = 0 →
      (filletStep points radius skip st i).out =
        st.out ++ [Entity.line st.memory (tripleAt points i).2.1] ∧
      (filletStep points radius skip st i).memory = (tripleAt points i).2.1) := by
  refine ⟨?_, ?_, ?_, ?_⟩
  · intro p0 p1 p2 h1 h2
    constructor
    · unfold chooseRadius
      rw [h1, h2]
      norm_num
    · unfold chooseRadius
      rw [h1, h2]
      norm_num
  · intro p0 p1 p2 radius hrad
    unfold chooseRadius
    by_cases h : distance p0 p1 > 2 * radius ∧ distance p1 p2 > 2 * radius
    · rw [if_pos h]
      exact ⟨fun _ => h, fun _ => rfl⟩
    · rw [if_neg h, if_neg (by simp)]
      constructor
      · intro h0
        exact absurd h0.symm (ne_of_gt hrad)
      · intro hh
        exact absurd hh h
  · intro p0 p1 p2 radius hrad
    unfold chooseRadius
    by_cases h : distance p0 p1 > 2 * radius ∧ distance p1 p2 > 2 * radius
    · rw [if_pos h]
      exact ⟨fun _ => ⟨le_of_lt h.1, le_of_lt h.2⟩, fun _ => rfl⟩
    · rw [if_neg h, if_pos rfl]
      constructor
      · intro h0
        have hmin : min (distance p0 p1) (distance p1 p2) = 2 * radius := by
          linarith
        constructor
        · have hle := min_le_left (distance p0 p1) (distance p1 p2)
          rw [hmin] at hle
          exact hle
        · have hle := min_le_right (distance p0 p1) (distance p1 p2)
          rw [hmin] at hle
          exact hle
      · rintro ⟨hh1, hh2⟩
        have hle : min (distance p0 p1) (distance p1 p2) ≤ 2 * radius := by
          rcases not_and_or.mp h with hna | hna
          · push_neg at hna
            exact le_trans (min_le_left _ _) hna
          · push_neg at hna
            exact le_trans (min_le_right _ _) hna
        have hge : 2 * radius ≤ min (distance p0 p1) (distance p1 p2) :=
          le_min hh1 hh2
        rw [le_antisymm hle hge]
        ring
  · intro points radius skip st i hi hr0
    simp only [filletStep]
    rw [if_neg (fun hh => hh hr0), if_pos hi]
    exact ⟨rfl, rfl⟩

theorem edgeAngle_bounds (p q : Pt) : -π < edgeAngle p q ∧ edgeAngle p q ≤ π :=
  atan2_bounds _ _

/-- C6 counterexample to the claim as stated: for the straight-through
collinear triple `p0 = (-1, 0)`, `p1 = (0, 0)`, `p2 = (1, 0)` the angular
difference is `π`, yet the divisor `sin(|angle2 - angle1| / 2)` equals 1, not
0: the division is perfectly defined there. -/
theorem C6_counterexample :
    |edgeAngle ((1 : ℝ), 0) (0, 0) - edgeAngle ((-1 : ℝ), 0) (0, 0)| = π ∧
    filletDivisor ((-1 : ℝ), 0) (0, 0) (1, 0) = 1 ∧
    filletDivisor ((-1 : ℝ), 0) (0, 0) (1, 0) ≠ 0 := by
  have hpi := Real.pi_pos
  have hA2 : edgeAngle ((1 : ℝ), 0) (0, 0) = 0 := by
    simp only [edgeAngle]
    simpa using atan2_pos_x 1 (by norm_num)
  have hA1 : edgeAngle ((-1 : ℝ), 0) (0, 0) = π := by
    simp only [edgeAngle]
    simpa using atan2_neg_x (-1) (by norm_num)
  have habs : |edgeAngle ((1 : ℝ), 0) (0, 0) - edgeAngle ((-1 : ℝ), 0) (0, 0)| = π := by
    rw [hA2, hA1, zero_sub, abs_neg, abs_of_pos hpi]
  have hdiv : filletDivisor ((-1 : ℝ), 0) (0, 0) (1, 0) = 1 := by
    unfold filletDivisor
    rw [hA2, hA1, zero_sub, abs_neg, abs_of_pos hpi]
    exact Real.sin_pi_div_two
  exact ⟨habs, hdiv, by rw [hdiv]; norm_num⟩

/-- C6 (amended): the divisor `sin(|angle2 - angle1| / 2)` of `add_fillet` is
zero exactly when the two edge direction angles are equal (edges leaving `p1`
in the same direction); at angular difference `π` (straight-through vertex)
it equals 1; and nothing in the code guards the singular case, which is
reached e.g. at `p0 = (1, 0)`, `p1 = (0, 0)`, `p2 = (2, 0)`. -/
theorem C6_divisor_singularity :
    (∀ p0 p1 p2 : Pt, filletDivisor p0 p1 p2 = 0 ↔
      edgeAngle p2 p1 = edgeAngle p0 p1) ∧
    (∀ p0 p1 p2 : Pt, |edgeAngle p2 p1 - edgeAngle p0 p1| = π →
      filletDivisor p0 p1 p2 = 1) ∧
    filletDivisor ((1 : ℝ), 0) (0, 0) (2, 0) = 0 := by
  refine ⟨?_, ?_, ?_⟩
  · intro p0 p1 p2
    constructor
    · intro h
      by_contra hne
      obtain ⟨h1l, h1u⟩ := edgeAngle_bounds p0 p1
      obtain ⟨h2l, h2u⟩ := edgeAngle_bounds p2 p1
      obtain ⟨-, hpos⟩ := half_sin (edgeAngle p2 p1 - edgeAngle p0 p1)
        (by linarith) (by linarith) (sub_ne_zero.mpr hne)
      unfold filletDivisor at h
      linarith
    · intro h
      unfold filletDivisor
      rw [h]
      simp
  · intro p0 p1 p2 h
    unfold filletDivisor
    rw [h]
    exact Real.sin_pi_div_two
  · have hA2 : edgeAngle ((2 : ℝ), 0) (0, 0) = 0 := by
      simp only [edgeAngle]
      simpa using atan2_pos_x 2 (by norm_num)
    have hA1 : edgeAngle ((1 : ℝ), 0) (0, 0) = 0 := by
      simp only [edgeAngle]
      simpa using atan2_pos_x 1 (by norm_num)
    unfold filletDivisor
    rw [hA2, hA1]
    simp

/-! ### Coordinate idempotence machinery for C8 -/

theorem round3_round3 (x : ℝ) : round3 (round3 x) = round3 x := by
  unfold round3
  rw [div_mul_cancel₀ _ (show (1000 : ℝ) ≠ 0 by norm_num), round_intCast]

theorem ptOK_round3P (p : Pt) : ptOK (round3P p) :=
  ⟨round3_round3 _, round3_round3 _⟩

theorem ptOK_triple (points : List Pt) (i : ℕ) : ptOK (tripleAt points i).2.1 :=
  ptOK_round3P _

theorem ptOK_t1 (p0 p1 p2 : Pt) (r : ℝ) : ptOK (add_fillet p0 p1 p2 r).2.1 :=
  ⟨round3_round3 _, round3_round3 _⟩

theorem ptOK_t2 (p0 p1 p2 : Pt) (r : ℝ) : ptOK (add_fillet p0 p1 p2 r).2.2 :=
  ⟨round3_round3 _, round3_round3 _⟩

theorem coordsOK_arc (p0 p1 p2 : Pt) (r : ℝ) : coordsOK (add_fillet p0 p1 p2 r).1 := by
  intro x hx
  have h : (add_fillet p0 p1 p2 r).1 = Entity.arc (filletCenterR p0 p1 p2 r) r
      (arcAngles p0 p1 p2).1 (arcAngles p0 p1 p2).2 := rfl
  rw [h] at hx
  simp only [entityCoords, List.mem_cons, List.not_mem_nil, or_false] at hx
  rcases hx with h1 | h1 <;> rw [h1] <;> exact round3_round3 _

theorem coordsOK_line (a b : Pt) (ha : ptOK a) (hb : ptOK b) :
    coordsOK (Entity.line a b) := by
  intro x hx
  simp only [entityCoords, List.mem_cons, List.not_mem_nil, or_false] at hx
  rcases hx with h | h | h | h <;> rw [h]
  · exact ha.1
  · exact ha.2
  · exact hb.1
  · exact hb.2

theorem filletStep_invOK (head : Pt) (points : List Pt) (radius : ℝ) (skip : Bool)
    (st : RState) (i : ℕ) (h : InvOK head st) :
    InvOK head (filletStep points radius skip st i) := by
  obtain ⟨hout, hmem, hfirst⟩ := h
  simp only [filletStep]
  by_cases hr : chooseRadius (tripleAt points i).1 (tripleAt points i).2.1
      (tripleAt points i).2.2 radius skip ≠ 0
  · rw [if_pos hr]
    by_cases hi : i ≠ 0
    · rw [if_pos hi]
      refine ⟨?_, ptOK_t2 _ _ _ _, hfirst⟩
      intro e he
      rcases List.mem_append.mp he with he' | he''
      · rcases List.mem_append.mp he' with h1 | h2
        · exact hout e h1
        · rw [List.mem_singleton] at h2
          rw [h2]
          exact coordsOK_arc _ _ _ _
      · by_cases hd : distance st.memory (add_fillet (tripleAt points i).1
            (tripleAt points i).2.1 (tripleAt points i).2.2
            (chooseRadius (tripleAt points i).1 (tripleAt points i).2.1
              (tripleAt points i).2.2 radius skip)).2.1 ≠ 0
        · rw [if_pos hd, List.mem_singleton] at he''
          rw [he'']
          exact coordsOK_line _ _ hmem (ptOK_t1 _ _ _ _)
        · rw [if_neg hd] at he''
          exact absurd he'' (List.not_mem_nil e)
    · rw [if_neg hi]
      refine ⟨?_, ptOK_t2 _ _ _ _, Or.inl (ptOK_t1 _ _ _ _)⟩
      intro e he
      rcases List.mem_append.mp he with h1 | h2
      · exact hout e h1
      · rw [List.mem_singleton] at h2
        rw [h2]
        exact coordsOK_arc _ _ _ _
  · rw [if_neg hr]
    by_cases hi : i ≠ 0
    · rw [if_pos hi]
      refine ⟨?_, ptOK_triple points i, hfirst⟩
      intro e he
      rcases List.mem_append.mp he with h1 | h2
      · exact hout e h1
      · rw [List.mem_singleton] at h2
        rw [h2]
        exact coordsOK_line _ _ hmem (ptOK_triple points i)
    · rw [if_neg hi]
      exact ⟨hout, ptOK_triple points i, hfirst⟩

theorem filletStep_zero_invOK (head : Pt) (points : List Pt) (radius : ℝ)
    (skip : Bool) (st : RState) (hout : ∀ e ∈ st.out, coordsOK e)
    (hfirst : ptOK st.first ∨ st.first = head) :
    InvOK head (filletStep points radius skip st 0) := by
  simp only [filletStep]
  by_cases hr : chooseRadius (tripleAt points 0).1 (tripleAt points 0).2.1
      (tripleAt points 0).2.2 radius skip ≠ 0
  · rw [if_pos hr, if_neg (by simp)]
    refine ⟨?_, ptOK_t2 _ _ _ _, Or.inl (ptOK_t1 _ _ _ _)⟩
    intro e he
    rcases List.mem_append.mp he with h1 | h2
    · exact hout e h1
    · rw [List.mem_singleton] at h2
      rw [h2]
      exact coordsOK_arc _ _ _ _
  · rw [if_neg hr, if_neg (by simp)]
    exact ⟨hout, ptOK_triple points 0, hfirst⟩

theorem foldl_invOK (head : Pt) (points : List Pt) (radius : ℝ) (skip : Bool) :
    ∀ (L : List ℕ) (st : RState), InvOK head st →
      InvOK head (L.foldl (filletStep points radius skip) st) := by
  intro L
  induction L with
  | nil => intro st h; exact h
  | cons i L ih =>
      intro st h
      rw [List.foldl_cons]
      exact ih _ (filletStep_invOK head points radius skip st i h)

/-- C8 (amended): every coordinate emitted by the rebuild loop is idempotent
under 3-decimal rounding, except possibly the loop-closing line's end point,
which is either rounding-fixed (the first vertex was filleted) or exactly the
contour's raw, unrounded first vertex (it was not). -/
theorem C8_round_idempotent (points : List Pt) (radius : ℝ) (skip : Bool)
    (l : List Entity) (hl : processContour points radius skip = some l) :
    (∀ e ∈ l.dropLast, ∀ x ∈ entityCoords e, round3 x = x) ∧
    ∃ a b, l.getLast? = some (Entity.line a b) ∧
      round3 a.1 = a.1 ∧ round3 a.2 = a.2 ∧
      ((round3 b.1 = b.1 ∧ round3 b.2 = b.2) ∨ b = points.headD (0, 0)) := by
  cases points with
  | nil => simp [processContour] at hl
  | cons p ps =>
    have hX : processContour (p :: ps) radius skip = some
        ((((List.range (p :: ps).length).foldl (filletStep (p :: ps) radius skip)
          ⟨p, (p :: ps).getLastD (0, 0), []⟩)).out ++
         [Entity.line ((List.range (p :: ps).length).foldl
            (filletStep (p :: ps) radius skip)
            ⟨p, (p :: ps).getLastD (0, 0), []⟩).memory
          ((List.range (p :: ps).length).foldl (filletStep (p :: ps) radius skip)
            ⟨p, (p :: ps).getLastD (0, 0), []⟩).first]) := rfl
    rw [hX] at hl
    have hl' := Option.some.inj hl
    have hInv : InvOK p ((List.range (p :: ps).length).foldl
        (filletStep (p :: ps) radius skip) ⟨p, (p :: ps).getLastD (0, 0), []⟩) := by
      rw [show (p :: ps).length = ps.length + 1 from rfl, List.range_succ_eq_map,
        List.foldl_cons]
      apply foldl_invOK
      apply filletStep_zero_invOK
      · intro e he
        exact absurd he (List.not_mem_nil e)
      · exact Or.inr rfl
    obtain ⟨hout, hmem, hfirst⟩ := hInv
    constructor
    · rw [← hl', List.dropLast_concat]
      exact hout
    · refine ⟨((List.range (p :: ps).length).foldl (filletStep (p :: ps) radius skip)
          ⟨p, (p :: ps).getLastD (0, 0), []⟩).memory,
        ((List.range (p :: ps).length).foldl (filletStep (p :: ps) radius skip)
          ⟨p, (p :: ps).getLastD (0, 0), []⟩).first, ?_, hmem.1, hmem.2, ?_⟩
      · rw [← hl']
        exact List.getLast?_concat _
      · rcases hfirst with h | h
        · exact Or.inl ⟨h.1, h.2⟩
        · exact Or.inr h

theorem round3_7e4 : round3 ((7 : ℝ) / 10000) = 1 / 1000 := by
  unfold round3
  rw [show (7 : ℝ) / 10000 * 1000 = 7 / 10 by ring, round_eq,
    show ⌊(7 : ℝ) / 10 + 1 / 2⌋ = 1 from Int.floor_eq_iff.mpr (by norm_num)]
  norm_num

/-- C8, counterexample to the claim as stated: on the one-vertex contour
`[(0.0007, 0)]` the vertex is not filleted, so the loop-closing line ends at
the raw first vertex `(0.0007, 0)`, and `0.0007` is not fixed by 3-decimal
rounding (it rounds to `0.001`). -/
theorem C8_counterexample :
    processContour [((7 : ℝ) / 10000, 0)] 1 true =
      some [Entity.line (1 / 1000, 0) (7 / 10000, 0)] ∧
    round3 ((7 : ℝ) / 10000) ≠ 7 / 10000 := by
  constructor
  · have htrip : tripleAt [((7 : ℝ) / 10000, 0)] 0 =
        ((1 / 1000, 0), (1 / 1000, 0), (1 / 1000, 0)) := by
      norm_num [tripleAt, round3P, round3_zero, round3_7e4, List.getD]
    have hd0 : distance ((1 : ℝ) / 1000, 0) (1 / 1000, 0) = 0 := by
      unfold distance
      norm_num
    have hcr : chooseRadius ((1 : ℝ) / 1000, 0) (1 / 1000, 0) (1 / 1000, 0) 1 true = 0 := by
      unfold chooseRadius
      rw [hd0]
      norm_num
    have hstep : filletStep [((7 : ℝ) / 10000, 0)] 1 true
        ⟨(7 / 10000, 0), (7 / 10000, 0), []⟩ 0 =
        ⟨(7 / 10000, 0), (1 / 1000, 0), []⟩ := by
      simp only [filletStep, htrip]
      norm_num [hcr]
    have hstart : processContour [((7 : ℝ) / 10000, 0)] 1 true = some
        ((((List.range 1).foldl (filletStep [((7 : ℝ) / 10000, 0)] 1 true)
          ⟨(7 / 10000, 0), (7 / 10000, 0), []⟩)).out ++
         [Entity.line ((List.range 1).foldl (filletStep [((7 : ℝ) / 10000, 0)] 1 true)
            ⟨(7 / 10000, 0), (7 / 10000, 0), []⟩).memory
          ((List.range 1).foldl (filletStep [((7 : ℝ) / 10000, 0)] 1 true)
            ⟨(7 / 10000, 0), (7 / 10000, 0), []⟩).first]) := rfl
    rw [hstart, show List.range 1 = [0] from rfl, List.foldl_cons, List.foldl_nil, hstep]
    rfl
  · rw [round3_7e4]
    norm_num

/-- C9: every entity surviving `checks` has elevation zero (when it carries
that attribute), zero z components on its `start` and `end` attributes, and
is not a `POINT` entity. -/
theorem C9_sanitizer (ms : List DxfEntity) (e : DxfEntity) (he : e ∈ checks ms) :
    (e.elevation = none ∨ e.elevation = some 0) ∧
    (∀ p ∈ e.start, p.2.2 = 0) ∧
    (∀ p ∈ e.finish, p.2.2 = 0) ∧
    e.dxftype ≠ "POINT" := by
  unfold checks at he
  rw [List.mem_filter] at he
  obtain ⟨hmem, hpt⟩ := he
  rw [List.mem_map] at hmem
  obtain ⟨e0, -, rfl⟩ := hmem
  refine ⟨?_, ?_, ?_, ?_⟩
  · cases h : e0.elevation with
    | none => left; simp [zFlatten, h]
    | some v => right; simp [zFlatten, h]
  · intro pp hp
    cases h : e0.start with
    | none => simp [zFlatten, h] at hp
    | some q =>
        simp [zFlatten, h] at hp
        rw [← hp]
  · intro pp hp
    cases h : e0.finish with
    | none => simp [zFlatten, h] at hp
    | some q =>
        simp [zFlatten, h] at hp
        rw [← hp]
  · simp only [zFlatten] at hpt ⊢
    simpa using hpt

/-- C10: a duplicate consecutive vertex (a zero-length rounded adjacent edge)
forces the reduced no-skip radius to 0, so the `r != 0` guard routes the
vertex to the no-fillet branch; consequently no arc entity with radius 0 is
ever emitted, under either skip policy. -/
theorem C10_no_zero_radius_arc :
    (∀ (p0 p1 p2 : Pt) (radius : ℝ), 0 ≤ radius →
      (distance p0 p1 = 0 ∨ distance p1 p2 = 0) →
      chooseRadius p0 p1 p2 radius false = 0) ∧
    (∀ (points : List Pt) (radius : ℝ) (skip : Bool) (l : List Entity),
      processContour points radius skip = some l →
      ∀ (c : Pt) (rr sa ea : ℝ), Entity.arc c rr sa ea ∈ l → rr ≠ 0) := by
  constructor
  · intro p0 p1 p2 radius hrad hzero
    unfold chooseRadius
    have hnotfit : ¬(distance p0 p1 > 2 * radius ∧ distance p1 p2 > 2 * radius) := by
      rintro ⟨hh1, hh2⟩
      rcases hzero with h | h
      · rw [h] at hh1
        linarith
      · rw [h] at hh2
        linarith
    rw [if_neg hnotfit, if_pos rfl]
    rcases hzero with h | h
    · rw [h, min_eq_left (distance_nonneg p1 p2)]
      norm_num
    · rw [h, min_eq_right (distance_nonneg p0 p1)]
      norm_num
  · intro points radius skip l hl c rr sa ea hmem
    cases points with
    | nil => simp [processContour] at hl
    | cons p ps =>
      have hX : processContour (p :: ps) radius skip = some
          ((((List.range (p :: ps).length).foldl (filletStep (p :: ps) radius skip)
            ⟨p, (p :: ps).getLastD (0, 0), []⟩)).out ++
           [Entity.line ((List.range (p :: ps).length).foldl
              (filletStep (p :: ps) radius skip)
              ⟨p, (p :: ps).getLastD (0, 0), []⟩).memory
            ((List.range (p :: ps).length).foldl (filletStep (p :: ps) radius skip)
              ⟨p, (p :: ps).getLastD (0, 0), []⟩).first]) := rfl
      rw [hX] at hl
      have hl' := Option.some.inj hl
      rw [← hl'] at hmem
      rcases List.mem_append.mp hmem with h1 | h2
      · -- in the fold output: use the invariant that arc radii are nonzero
        revert h1
        have hgen : ∀ (L : List ℕ) (st : RState),
            (∀ (c' : Pt) (rr' sa' ea' : ℝ), Entity.arc c' rr' sa' ea' ∈ st.out → rr' ≠ 0) →
            Entity.arc c rr sa ea ∈
              (L.foldl (filletStep (p :: ps) radius skip) st).out → rr ≠ 0 := by
          intro L
          induction L with
          | nil => intro st hst h1; exact hst c rr sa ea h1
          | cons i L ih =>
              intro st hst h1
              rw [List.foldl_cons] at h1
              refine ih _ ?_ h1
              intro c' rr' sa' ea' hmem'
              simp only [filletStep] at hmem'
              by_cases hr : chooseRadius (tripleAt (p :: ps) i).1
                  (tripleAt (p :: ps) i).2.1 (tripleAt (p :: ps) i).2.2 radius skip ≠ 0
              · rw [if_pos hr] at hmem'
                by_cases hi : i ≠ 0
                · rw [if_pos hi] at hmem'
                  rcases List.mem_append.mp hmem' with ha | hb
                  · rcases List.mem_append.mp ha with ha1 | ha2
                    · exact hst _ _ _ _ ha1
                    · rw [List.mem_singleton] at ha2
                      have harc : (add_fillet (tripleAt (p :: ps) i).1
                          (tripleAt (p :: ps) i).2.1 (tripleAt (p :: ps) i).2.2
                          (chooseRadius (tripleAt (p :: ps) i).1
                            (tripleAt (p :: ps) i).2.1 (tripleAt (p :: ps) i).2.2
                            radius skip)).1 =
                          Entity.arc (filletCenterR (tripleAt (p :: ps) i).1
                            (tripleAt (p :: ps) i).2.1 (tripleAt (p :: ps) i).2.2
                            (chooseRadius (tripleAt (p :: ps) i).1
                              (tripleAt (p :: ps) i).2.1 (tripleAt (p :: ps) i).2.2
                              radius skip))
                            (chooseRadius (tripleAt (p :: ps) i).1
                              (tripleAt (p :: ps) i).2.1 (tripleAt (p :: ps) i).2.2
                              radius skip)
                            (arcAngles (tripleAt (p :: ps) i).1 (tripleAt (p :: ps) i).2.1
                              (tripleAt (p :: ps) i).2.2).1
                            (arcAngles (tripleAt (p :: ps) i).1 (tripleAt (p :: ps) i).2.1
                              (tripleAt (p :: ps) i).2.2).2 := rfl
                      rw [harc, Entity.arc.injEq] at ha2
                      rw [ha2.2.1]
                      exact hr
                  · by_cases hdd : distance st.memory (add_fillet (tripleAt (p :: ps) i).1
                        (tripleAt (p :: ps) i).2.1 (tripleAt (p :: ps) i).2.2
                        (chooseRadius (tripleAt (p :: ps) i).1 (tripleAt (p :: ps) i).2.1
                          (tripleAt (p :: ps) i).2.2 radius skip)).2.1 ≠ 0
                    · rw [if_pos hdd, List.mem_singleton] at hb
                      exact absurd hb (by simp)
                    · rw [if_neg hdd] at hb
                      exact absurd hb (List.not_mem_nil _)
                · rw [if_neg hi] at hmem'
                  rcases List.mem_append.mp hmem' with ha1 | ha2
                  · exact hst _ _ _ _ ha1
                  · rw [List.mem_singleton] at ha2
                    have harc : (add_fillet (tripleAt (p :: ps) i).1
                        (tripleAt (p :: ps) i).2.1 (tripleAt (p :: ps) i).2.2
                        (chooseRadius (tripleAt (p :: ps) i).1
                          (tripleAt (p :: ps) i).2.1 (tripleAt (p :: ps) i).2.2
                          radius skip)).1 =
                        Entity.arc (filletCenterR (tripleAt (p :: ps) i).1
                          (tripleAt (p :: ps) i).2.1 (tripleAt (p :: ps) i).2.2
                          (chooseRadius (tripleAt (p :: ps) i).1
                            (tripleAt (p :: ps) i).2.1 (tripleAt (p :: ps) i).2.2
                            radius skip))
                          (chooseRadius (tripleAt (p :: ps) i).1
                            (tripleAt (p :: ps) i).2.1 (tripleAt (p :: ps) i).2.2
                            radius skip)
                          (arcAngles (tripleAt (p :: ps) i).1 (tripleAt (p :: ps) i).2.1
                            (tripleAt (p :: ps) i).2.2).1
                          (arcAngles (tripleAt (p :: ps) i).1 (tripleAt (p :: ps) i).2.1
                            (tripleAt (p :: ps) i).2.2).2 := rfl
                    rw [harc, Entity.arc.injEq] at ha2
                    rw [ha2.2.1]
                    exact hr
              · rw [if_neg hr] at hmem'
                by_cases hi : i ≠ 0
                · rw [if_pos hi] at hmem'
                  rcases List.mem_append.mp hmem' with ha1 | ha2
                  · exact hst _ _ _ _ ha1
                  · rw [List.mem_singleton] at ha2
                    exact absurd ha2 (by simp)
                · rw [if_neg hi] at hmem'
                  exact hst _ _ _ _ hmem'
        intro h1
        exact hgen _ _ (fun c' rr' sa' ea' h => absurd h (List.not_mem_nil _)) h1
      · rw [List.mem_singleton] at h2
        exact absurd h2 (by simp)

/-! ### Witnesses -/

/-- Witness for C1 at the right-angle corner of C4. -/
theorem C1_witness :
    |distToLine (filletCenterR ((0 : ℝ), 10) (0, 0) (10, 0) 5) ((0 : ℝ), 10) (0, 0) - 5| ≤
      1 / 1000 ∧
    |distToLine (filletCenterR ((0 : ℝ), 10) (0, 0) (10, 0) 5) ((0 : ℝ), 0) (10, 0) - 5| ≤
      1 / 1000 ∧
    distToLine (add_fillet ((0 : ℝ), 10) (0, 0) (10, 0) 5).2.1 ((0 : ℝ), 10) (0, 0) ≤
      3 / 2000 ∧
    distToLine (add_fillet ((0 : ℝ), 10) (0, 0) (10, 0) 5).2.2 ((0 : ℝ), 0) (10, 0) ≤
      3 / 2000 :=
  fillet_tangency ((0 : ℝ), 10) (0, 0) (10, 0) 5 (by norm_num)
    (by unfold cross; norm_num)

/-- Witness for C3 at a corner with both edges of length 6. -/
theorem C3_witness :
    chooseRadius ((6 : ℝ), 0) (0, 0) (0, 6) 5 false = 3 ∧
    chooseRadius ((6 : ℝ), 0) (0, 0) (0, 6) 5 true = 0 :=
  C3_radius_policy.1 (6, 0) (0, 0) (0, 6)
    (distance_concrete _ _ _ _ 6 (by norm_num) (by norm_num))
    (distance_concrete _ _ _ _ 6 (by norm_num) (by norm_num))

/-- Witness for C5 on the one-vertex contour. -/
theorem C5_witness :
    ∃ rest a b, processContour [((0 : ℝ), 0)] 1 true =
      some (rest ++ [Entity.line a b]) :=
  C5_connecting_lines.2.2.1 [((0 : ℝ), 0)] 1 true (by simp)

/-- Witness for C6 at the straight-through collinear triple. -/
theorem C6_witness : filletDivisor ((-1 : ℝ), 0) (0, 0) (1, 0) = 1 :=
  C6_divisor_singularity.2.1 (-1, 0) (0, 0) (1, 0) (by
    have hpi := Real.pi_pos
    have hA2 : edgeAngle ((1 : ℝ), 0) (0, 0) = 0 := by
      simp only [edgeAngle]
      simpa using atan2_pos_x 1 (by norm_num)
    have hA1 : edgeAngle ((-1 : ℝ), 0) (0, 0) = π := by
      simp only [edgeAngle]
      simpa using atan2_neg_x (-1) (by norm_num)
    rw [hA2, hA1, zero_sub, abs_neg, abs_of_pos hpi])

/-- Witness for C8 on the one-vertex contour. -/
theorem C8_witness :
    (∀ e ∈ ([Entity.line ((0 : ℝ), 0) (0, 0)] : List Entity).dropLast,
      ∀ x ∈ entityCoords e, round3 x = x) ∧
    ∃ a b, ([Entity.line ((0 : ℝ), 0) (0, 0)] : List Entity).getLast? =
        some (Entity.line a b) ∧
      round3 a.1 = a.1 ∧ round3 a.2 = a.2 ∧
      ((round3 b.1 = b.1 ∧ round3 b.2 = b.2) ∨
        b = ([((0 : ℝ), 0)] : List Pt).headD (0, 0)) :=
  C8_round_idempotent [((0 : ℝ), 0)] 1 true [Entity.line (0, 0) (0, 0)]
    singleton_trace

/-- Witness for C9 on a two-entity modelspace with a 3D line and a point. -/
theorem C9_witness :
    ((⟨"LINE", some 0, some (1, 2, 0), some (4, 5, 0)⟩ : DxfEntity).elevation = none ∨
      (⟨"LINE", some 0, some (1, 2, 0), some (4, 5, 0)⟩ : DxfEntity).elevation = some 0) ∧
    (∀ p ∈ (⟨"LINE", some 0, some (1, 2, 0), some (4, 5, 0)⟩ : DxfEntity).start,
      p.2.2 = 0) ∧
    (∀ p ∈ (⟨"LINE", some 0, some (1, 2, 0), some (4, 5, 0)⟩ : DxfEntity).finish,
      p.2.2 = 0) ∧
    (⟨"LINE", some 0, some (1, 2, 0), some (4, 5, 0)⟩ : DxfEntity).dxftype ≠ "POINT" :=
  C9_sanitizer
    [⟨"LINE", some 5, some (1, 2, 3), some (4, 5, 6)⟩, ⟨"POINT", none, none, none⟩]
    ⟨"LINE", some 0, some (1, 2, 0), some (4, 5, 0)⟩
    (by
      rw [show checks [⟨"LINE", some 5, some (1, 2, 3), some (4, 5, 6)⟩,
        ⟨"POINT", none, none, none⟩] =
        [⟨"LINE", some 0, some (1, 2, 0), some (4, 5, 0)⟩] from rfl]
      exact List.mem_singleton.mpr rfl)

/-- Witness for C10: a duplicate vertex under no-skip, and the arc radii of
the one-vertex trace. -/
theorem C10_witness :
    chooseRadius ((0 : ℝ), 0) (0, 0) (3, 0) 1 false = 0 ∧
    (∀ (c : Pt) (rr sa ea : ℝ),
      Entity.arc c rr sa ea ∈ [Entity.line ((0 : ℝ), 0) (0, 0)] → rr ≠ 0) :=
  ⟨C10_no_zero_radius_arc.1 (0, 0) (0, 0) (3, 0) 1 (by norm_num)
      (Or.inl (by unfold distance; norm_num)),
    C10_no_zero_radius_arc.2 [((0 : ℝ), 0)] 1 true [Entity.line (0, 0) (0, 0)]
      singleton_trace⟩

end RoundDxf
